import Mathlib

/-!
Verification of the incident-extraction and trace-bundling engine of the
llm-rag-incident-platform repository.

The Python modules under `apps/ingestor` (modules/normalize.py,
modules/incidents.py, modules/trace_bundler.py, tools/extract_incident_to_pg.py)
and `apps/rag-worker/worker/repository.py` are shallowly embedded below:
pure Python functions become Lean functions over `List Char` / `String`,
dict-shaped records become structures of `Option` fields, the imperative
loops become explicit folds over lists, and wall-clock reads
(`datetime.now()`) become explicit parameters.  Machine-level details kept
faithful: Python truthiness, `dict.get` defaults, regex scanning order,
and the exact string constants of the source.
-/

namespace Spec2Proof

/-! ## Basic character / string helpers (models of Python str methods) -/

/-- Model of Python whitespace (`str.strip`, `\s`): space, tab, newline,
carriage return, form feed, vertical tab. -/
def isPySpace (c : Char) : Bool :=
  c = ' ' || c = '\t' || c = '\n' || c = '\r' || c = '\x0c' || c = '\x0b'

def isAsciiDigit (c : Char) : Bool := '0' ≤ c && c ≤ '9'

def isAsciiAlpha (c : Char) : Bool :=
  ('a' ≤ c && c ≤ 'z') || ('A' ≤ c && c ≤ 'Z')

/-- Python `\w`: word character (letters, digits, underscore; ASCII model). -/
def isWordChar (c : Char) : Bool := isAsciiAlpha c || isAsciiDigit c || c = '_'

def isLowerHexDigit (c : Char) : Bool :=
  isAsciiDigit c || ('a' ≤ c && c ≤ 'f')

/-- `str.lstrip()` on a character list. -/
def lstripChars : List Char → List Char
  | [] => []
  | c :: cs => if isPySpace c then lstripChars cs else c :: cs

/-- `str.strip()` on a character list. -/
def stripChars (cs : List Char) : List Char :=
  (lstripChars (lstripChars cs.reverse).reverse)

def pyStrip (s : String) : String := ⟨stripChars s.data⟩

/-- `str.strip(chars)` with an explicit strip set (used by the fingerprint
canonicalizer as `p.strip('.:; ')`). -/
def lstripSet (set : List Char) : List Char → List Char
  | [] => []
  | c :: cs => if set.contains c then lstripSet set cs else c :: cs

def stripSet (set : List Char) (cs : List Char) : List Char :=
  (lstripSet set (lstripSet set cs.reverse).reverse)

def pyUpper (s : String) : String := ⟨s.data.map Char.toUpper⟩

def pyLower (s : String) : String := ⟨s.data.map Char.toLower⟩

/-- Does `needle` occur as a contiguous sublist of `haystack`?
(model of Python `needle in haystack` on strings). -/
def listContainsSub (haystack needle : List Char) : Bool :=
  match haystack with
  | [] => needle.isEmpty
  | _ :: tl => needle.isPrefixOf haystack || listContainsSub tl needle

def strContains (haystack needle : String) : Bool :=
  listContainsSub haystack.data needle.data

def strStartsWith (s pre : String) : Bool := pre.data.isPrefixOf s.data

def strEndsWith (s suf : String) : Bool := suf.data.isSuffixOf s.data

/-- `str.splitlines()` (model: split at `\n`, also treating `\r\n` and `\r`). -/
def splitLinesAux (cur : List Char) : List Char → List (List Char)
  | [] => [cur.reverse]
  | '\n' :: rest => cur.reverse :: splitLinesAux [] rest
  | '\r' :: '\n' :: rest => cur.reverse :: splitLinesAux [] rest
  | '\r' :: rest => cur.reverse :: splitLinesAux [] rest
  | c :: rest => splitLinesAux (c :: cur) rest

/-- Python `splitlines` yields no trailing empty line for text ending in a
newline, and `[]` for the empty string. -/
def pySplitLines (s : String) : List String :=
  if s.data.isEmpty then []
  else
    let parts := splitLinesAux [] s.data
    let parts := if parts ≠ [] ∧ parts.getLast! = [] then parts.dropLast else parts
    parts.map (fun cs => ⟨cs⟩)

/-- `"\n".join(lines)` -/
def joinLines (lines : List String) : String := String.intercalate "\n" lines

/-- `sep.join(xs)` -/
def pyJoin (sep : String) (xs : List String) : String := String.intercalate sep xs

/-- `str.rstrip("\n")` -/
def rstripNewlines (s : String) : String :=
  ⟨((s.data.reverse.dropWhile (fun c => c = '\n')).reverse)⟩

/-- `str.rstrip()` (whitespace). -/
def pyRstrip (s : String) : String :=
  ⟨(s.data.reverse.dropWhile isPySpace).reverse⟩

/-- Parse a run of decimal digits; returns the value, its length and the rest. -/
def takeDigits : List Char → (List Char × List Char)
  | [] => ([], [])
  | c :: cs =>
    if isAsciiDigit c then
      let (ds, rest) := takeDigits cs
      (c :: ds, rest)
    else ([], c :: cs)

def digitsVal (ds : List Char) : Nat :=
  ds.foldl (fun acc c => acc * 10 + (c.toNat - '0'.toNat)) 0

/-- Model of Python `int(s)` for strings: optional surrounding whitespace,
optional sign, then at least one digit (underscore grouping not modelled). -/
def pyIntOfString (s : String) : Option Int :=
  let cs := stripChars s.data
  match cs with
  | [] => none
  | c :: rest =>
    let (sign, body) : Int × List Char :=
      if c = '-' then (-1, rest) else if c = '+' then (1, rest) else (1, c :: rest)
    match body with
    | [] => none
    | _ =>
      let (ds, rest2) := takeDigits body
      if ds ≠ [] ∧ rest2 = [] then some (sign * (digitsVal ds : Int)) else none

/-! ## Datetime model

Timestamps are modelled as a broken-down civil datetime plus an optional
timezone offset in minutes (`none` = naive).  Conversions use the standard
civil-from-days / days-from-civil algorithms; naive datetimes are treated
as UTC (the containers run with a UTC clock).  Microseconds are carried so
`datetime.replace(microsecond=0)` is representable. -/

structure DT where
  year : Nat
  month : Nat
  day : Nat
  hour : Nat := 0
  minute : Nat := 0
  second : Nat := 0
  micro : Nat := 0
  offMin : Option Int := none
deriving DecidableEq, Repr

/-- Days since the civil era base 0000-03-01 (valid for year ≥ 1). -/
def civilDays (y m d : Nat) : Nat :=
  let yp := if m ≤ 2 then y - 1 else y
  let era := yp / 400
  let yoe := yp % 400
  let mp := if m > 2 then m - 3 else m + 9
  let doy := (153 * mp + 2) / 5 + d - 1
  let doe := yoe * 365 + yoe / 4 - yoe / 100 + doy
  era * 146097 + doe

/-- Civil date from day count (inverse of `civilDays`). -/
def civilFromDays (z : Nat) : Nat × Nat × Nat :=
  let era := z / 146097
  let doe := z % 146097
  let yoe := (doe - doe / 1460 + doe / 36524 - doe / 146096) / 365
  let y := yoe + era * 400
  let doy := doe - (365 * yoe + yoe / 4 - yoe / 100)
  let mp := (5 * doy + 2) / 153
  let d := doy - (153 * mp + 2) / 5 + 1
  let m := if mp < 10 then mp + 3 else mp - 9
  (if m ≤ 2 then y + 1 else y, m, d)

/-- Seconds since the Unix epoch, interpreting a naive value as UTC. -/
def dtToEpoch (t : DT) : Int :=
  ((civilDays t.year t.month t.day : Int) - 719468) * 86400
    + t.hour * 3600 + t.minute * 60 + t.second
    - (t.offMin.getD 0) * 60

/-- Microseconds since the Unix epoch (total order used for comparisons). -/
def dtToEpochMicro (t : DT) : Int := dtToEpoch t * 1000000 + t.micro

def dtLt (a b : DT) : Bool := dtToEpochMicro a < dtToEpochMicro b

def dtLe (a b : DT) : Bool := dtToEpochMicro a ≤ dtToEpochMicro b

/-- UTC datetime from an epoch-second count (nonnegative epochs). -/
def epochToDTUtc (e : Int) : DT :=
  let z := e.toNat
  let days := z / 86400
  let rem := z % 86400
  let (y, m, d) := civilFromDays (days + 719468)
  { year := y, month := m, day := d,
    hour := rem / 3600, minute := rem % 3600 / 60, second := rem % 60,
    micro := 0, offMin := some 0 }

def pad2 (n : Nat) : String := if n < 10 then "0" ++ toString n else toString n

def pad4 (n : Nat) : String :=
  if n < 10 then "000" ++ toString n
  else if n < 100 then "00" ++ toString n
  else if n < 1000 then "0" ++ toString n
  else toString n

def pad6 (n : Nat) : String :=
  let s := toString n
  let k := 6 - s.length
  ⟨List.replicate k '0'⟩ ++ s

/-- `datetime.isoformat()`: `YYYY-MM-DDTHH:MM:SS[.ffffff][±HH:MM]`. -/
def dtIsoformat (t : DT) : String :=
  let date := pad4 t.year ++ "-" ++ pad2 t.month ++ "-" ++ pad2 t.day
  let time := pad2 t.hour ++ ":" ++ pad2 t.minute ++ ":" ++ pad2 t.second
  let frac := if t.micro = 0 then "" else "." ++ pad6 t.micro
  let off :=
    match t.offMin with
    | none => ""
    | some o =>
      let sign := if o < 0 then "-" else "+"
      let a := o.natAbs
      sign ++ pad2 (a / 60) ++ ":" ++ pad2 (a % 60)
  date ++ "T" ++ time ++ frac ++ off

/-- `datetime.astimezone(timezone.utc)` (naive values taken as UTC). -/
def dtToUtc (t : DT) : DT :=
  let e := dtToEpoch t
  let base := epochToDTUtc e
  { base with micro := t.micro }

/-- Parse `±HH:MM` timezone offset. -/
def parseOffset (cs : List Char) : Option Int :=
  match cs with
  | s :: h1 :: h2 :: ':' :: m1 :: m2 :: [] =>
    if (s = '+' ∨ s = '-') ∧ [h1, h2, m1, m2].all isAsciiDigit then
      let v : Int := digitsVal [h1, h2] * 60 + digitsVal [m1, m2]
      some (if s = '-' then -v else v)
    else none
  | _ => none

/-- Model of `datetime.fromisoformat` for the shapes produced by the log
pipeline: `YYYY-MM-DD`, optionally followed by `T` or a space and
`HH:MM:SS`, an optional `.fraction`, and an optional `±HH:MM` offset
(callers replace a trailing `Z` with `+00:00` before parsing). -/
def parseIso (s : String) : Option DT :=
  match s.data with
  | y1 :: y2 :: y3 :: y4 :: '-' :: mo1 :: mo2 :: '-' :: d1 :: d2 :: rest =>
    if ¬ ([y1, y2, y3, y4, mo1, mo2, d1, d2].all isAsciiDigit) then none
    else
      let y := digitsVal [y1, y2, y3, y4]
      let mo := digitsVal [mo1, mo2]
      let d := digitsVal [d1, d2]
      if mo < 1 ∨ mo > 12 ∨ d < 1 ∨ d > 31 then none
      else
        match rest with
        | [] => some { year := y, month := mo, day := d }
        | sep :: h1 :: h2 :: ':' :: mi1 :: mi2 :: ':' :: s1 :: s2 :: rest2 =>
          if ¬ (sep = 'T' ∨ sep = ' ') then none
          else if ¬ ([h1, h2, mi1, mi2, s1, s2].all isAsciiDigit) then none
          else
            let hh := digitsVal [h1, h2]
            let mm := digitsVal [mi1, mi2]
            let ss := digitsVal [s1, s2]
            if hh > 23 ∨ mm > 59 ∨ ss > 59 then none
            else
              let (micro, rest3) :=
                match rest2 with
                | '.' :: more =>
                  let (ds, r) := takeDigits more
                  -- fromisoformat accepts 1-6 fractional digits; scale to micro
                  (digitsVal ds * 10 ^ (6 - ds.length), r)
                | other => (0, other)
              match rest3 with
              | [] => some { year := y, month := mo, day := d, hour := hh,
                             minute := mm, second := ss, micro := micro }
              | _ =>
                match parseOffset rest3 with
                | some off => some { year := y, month := mo, day := d, hour := hh,
                                     minute := mm, second := ss, micro := micro,
                                     offMin := some off }
                | none => none
        | _ => none
  | _ => none

/-! ## Severity tables

Each Python module carries its own severity table; they are embedded
separately and by their source names. -/

def lookupD (d : List (String × Nat)) (k : String) (dflt : Nat) : Nat :=
  (d.lookup k).getD dflt

/-- `trace_bundler.SEVERITY_ORDER` -/
def SEVERITY_ORDER : List (String × Nat) :=
  [("DEBUG", 0), ("INFO", 1), ("WARNING", 2), ("ERROR", 3), ("CRITICAL", 4)]

/-- `extract_incident_to_pg.LEVEL_ORDER` -/
def LEVEL_ORDER : List (String × Nat) :=
  [("DEBUG", 10), ("INFO", 20), ("WARNING", 30), ("ERROR", 40), ("CRITICAL", 50)]

/-- `normalize.LEVEL_NUM` -/
def LEVEL_NUM : List (String × Nat) :=
  [("DEBUG", 10), ("INFO", 20), ("WARN", 30), ("WARNING", 30),
   ("ERROR", 40), ("ERR", 40), ("CRITICAL", 50), ("FATAL", 50)]

/-- `incidents.LEVEL_RANK` -/
def LEVEL_RANK : List (String × Nat) :=
  [("DEBUG", 10), ("VERBOSE", 10), ("INFO", 20), ("INFORMATION", 20),
   ("WARNING", 30), ("WARN", 30), ("ERROR", 40), ("CRITICAL", 50), ("FATAL", 50)]

/-- `incidents.NUM_LEVEL_MAP` -/
def NUM_LEVEL_MAP : List (Int × String) :=
  [(0, "DEBUG"), (1, "INFO"), (2, "WARNING"), (3, "ERROR"), (4, "CRITICAL")]

/-! ## C1 — store upsert merge semantics

`extract_incident_to_pg.UPSERT_SQL` and `repository.upsert_documents` both
resolve an `ON CONFLICT (id) DO UPDATE` against the `documents` table.  The
merge applied by the database to the conflicting row is embedded as a pure
function from the stored row and the incoming (EXCLUDED) row to the updated
row, directly transcribing the SET list of each statement. -/

structure DocumentsRow where
  id : String
  source : String
  ts : String
  content : String
  /-- `severity` column; NULL is `none` (the tool writes `Optional[str]`). -/
  severity : Option String
deriving DecidableEq, Repr

/-- `UPSERT_SQL` of `extract_incident_to_pg.py`:
`SET ts = EXCLUDED.ts, content = EXCLUDED.content,
severity = COALESCE(EXCLUDED.severity, documents.severity),
source = EXCLUDED.source`. -/
def upsertMergeExtractTool (stored incoming : DocumentsRow) : DocumentsRow :=
  { id := stored.id
    ts := incoming.ts
    content := incoming.content
    severity := match incoming.severity with
                | none => stored.severity
                | some s => some s
    source := incoming.source }

/-- A `documents` row as written by `repository.upsert_documents`
(severity is `Optional[int]`, plus an embedding vector whose value the
merge copies opaquely). -/
structure WorkerDocRow (E : Type) where
  id : String
  source : String
  ts : String
  content : String
  severity : Option Int
  embedding : E
deriving DecidableEq, Repr

/-- `repository.upsert_documents` conflict clause:
`SET source = EXCLUDED.source, ts = EXCLUDED.ts, content = EXCLUDED.content,
severity = COALESCE(EXCLUDED.severity, documents.severity),
embedding = EXCLUDED.embedding`. -/
def upsert_documents_merge {E : Type} (stored incoming : WorkerDocRow E) :
    WorkerDocRow E :=
  { id := stored.id
    source := incoming.source
    ts := incoming.ts
    content := incoming.content
    severity := match incoming.severity with
                | none => stored.severity
                | some s => some s
    embedding := incoming.embedding }

/-! ## C4 — severity classifiers

Inputs are modelled as the JSON-ish values the classifiers receive:
`None`, a number, or a string (Python `int(val)` on other objects raises
and falls to the string branch; such objects behave like their `str()`
form, so `vstr` covers them for classification purposes). -/

inductive PyVal where
  | vnone
  | vint (n : Int)
  | vstr (s : String)
deriving DecidableEq, Repr

/-- Numeric thresholds shared by `_coerce_level` / `coerce_severity`. -/
def levelFromNum (n : Int) : String × Nat :=
  if n ≥ 50 then ("CRITICAL", 50)
  else if n ≥ 40 then ("ERROR", 40)
  else if n ≥ 30 then ("WARNING", 30)
  else if n ≥ 20 then ("INFO", 20)
  else ("DEBUG", 10)

/-- `normalize._coerce_level`.  Note Python tries `int(val)` first, which
also succeeds on numeric strings. -/
def coerce_level (val : PyVal) : String × Nat :=
  match val with
  | .vnone => ("INFO", 20)
  | .vint n => levelFromNum n
  | .vstr str =>
    match pyIntOfString str with
    | some n => levelFromNum n
    | none =>
      let s := pyUpper (pyStrip str)
      match LEVEL_NUM.lookup s with
      | some v =>
        ((if s = "WARN" then "WARNING" else if s = "ERR" then "ERROR" else s), v)
      | none =>
        if strStartsWith s "WARN" then ("WARNING", 30)
        else if strStartsWith s "ERR" then ("ERROR", 40)
        else if strStartsWith s "CRIT" ∨ s = "FATAL" then ("CRITICAL", 50)
        else if strStartsWith s "DBG" then ("DEBUG", 10)
        else ("INFO", 20)

/-- `extract_incident_to_pg.coerce_severity`.  Strings are NOT tried as
numbers (`isinstance(val, (int, float))` gates the numeric branch), and
the final fall-through returns `"DEBUG"`. -/
def coerce_severity (val : PyVal) : String :=
  match val with
  | .vnone => "INFO"
  | .vint n => (levelFromNum n).1
  | .vstr str =>
    let s := pyUpper str
    if (LEVEL_ORDER.lookup s).isSome then s
    else if strContains s "CRITICAL" then "CRITICAL"
    else if strContains s "ERROR" then "ERROR"
    else if strContains s "WARN" then "WARNING"
    else if strContains s "INFO" then "INFO"
    else "DEBUG"

/-! ## C6 — severity merge operations of the trace bundler -/

/-- A timestamp value as found in a normalized log dict: either a raw
string (parsed on use) or an already-constructed datetime. -/
inductive TsVal where
  | s (v : String)
  | d (v : DT)
deriving DecidableEq, Repr

/-- A normalized log entry as consumed by `trace_bundler` (dict fields the
module reads; `none` models an absent key). -/
structure IncidentLog where
  timestamp : Option TsVal := none
  severity : Option String := none
  message : Option String := none
  exception_type : Option String := none
  stack_trace : Option String := none
  trace_id : Option String := none
  service : Option String := none
  operation : Option String := none
deriving DecidableEq, Repr

structure IncidentBundle where
  trace_id : String
  service : String
  operation : Option String := none
  severity : String := "INFO"
  logs : List IncidentLog := []
  first_ts : Option DT := none
  last_ts : Option DT := none
deriving DecidableEq, Repr

/-- Timestamp extraction step of `IncidentBundle.add_log`: a string value
is parsed with `fromisoformat` after a `Z → +00:00` replacement, a parse
failure degrades to `None`; falsy values (`None`, `""`) are skipped. -/
def addLogTs (t : Option TsVal) : Option DT :=
  match t with
  | none => none
  | some (.s v) => if v = "" then none else parseIso (v.replace "Z" "+00:00")
  | some (.d v) => some v

/-- `IncidentBundle.add_log` (trace_bundler.py lines 53-81), as a pure
state update. -/
def IncidentBundle.add_log (b : IncidentBundle) (log : IncidentLog) :
    IncidentBundle :=
  let logs := b.logs ++ [log]
  let ts := addLogTs log.timestamp
  let first_ts :=
    match ts, b.first_ts with
    | none, f => f
    | some t, none => some t
    | some t, some f => if dtLt t f then some t else some f
  let last_ts :=
    match ts, b.last_ts with
    | none, l => l
    | some t, none => some t
    | some t, some l => if dtLt l t then some t else some l
  let log_sev := log.severity.getD "INFO"
  let severity :=
    if lookupD SEVERITY_ORDER log_sev 1 > lookupD SEVERITY_ORDER b.severity 1
    then log_sev else b.severity
  let service :=
    if b.service = "" ∨ b.service = "unknown" then log.service.getD "unknown"
    else b.service
  let operation :=
    match b.operation with
    | none => log.operation
    | some o => if o = "" then log.operation else some o
  { b with logs, first_ts, last_ts, severity, service, operation }

/-- The dict produced by `BatchTraceBundler._create_bundle` and merged by
the fingerprint-deduplication step of `bundle_dataframe`. -/
structure BundleDict where
  id : String
  trace_id : String
  service : String
  operation : Option String
  severity : String
  content : String
  log_count : Nat
  first_ts : Option DT
  last_ts : Option DT
  raw_line_range : Option String
  propagation : List String
deriving DecidableEq, Repr

/-- Fingerprint-collision merge of `BatchTraceBundler.bundle_dataframe`
(lines 287-306): concatenates line ranges, sums log counts, keeps the
earliest first_ts and the highest severity; all other fields keep the
existing bundle's values. -/
def mergeFingerprintCollision (existing bundle : BundleDict) : BundleDict :=
  let ranges := [existing.raw_line_range, bundle.raw_line_range]
  let merged_range := pyJoin ", " ((ranges.filterMap id).filter (fun s => s ≠ ""))
  let log_count := existing.log_count + bundle.log_count
  let first_ts :=
    match bundle.first_ts, existing.first_ts with
    | some bf, none => some bf
    | some bf, some ef => if dtLt bf ef then some bf else some ef
    | none, ef => ef
  let severity :=
    if lookupD SEVERITY_ORDER bundle.severity 1
        > lookupD SEVERITY_ORDER existing.severity 1
    then bundle.severity else existing.severity
  { existing with raw_line_range := some merged_range, log_count, first_ts,
                  severity }

/-! ## Regex matchers for incidents.py / extract_incident_to_pg.py

Each Python regex is embedded as a character-level parser with the same
matching semantics (leftmost, non-overlapping `finditer`, greedy character
classes; the patterns involved need no general backtracking because their
character classes exclude the following delimiters). -/

def lbraceC : Char := Char.ofNat 123

def rbraceC : Char := Char.ofNat 125

/-- Consume a literal (case sensitive). -/
def dropLit (lit : List Char) (cs : List Char) : Option (List Char) :=
  if lit.isPrefixOf cs then some (cs.drop lit.length) else none

/-- Consume a literal case-insensitively (`lit` given in lowercase). -/
def dropLitCI (lit : List Char) (cs : List Char) : Option (List Char) :=
  if lit.isPrefixOf ((cs.take lit.length).map Char.toLower) ∧
      lit.length ≤ cs.length then
    some (cs.drop lit.length)
  else none

/-- Consume one-or-more whitespace (`\s+`). -/
def dropSpaces1 (cs : List Char) : Option (List Char) :=
  match cs with
  | c :: rest => if isPySpace c then some (rest.dropWhile isPySpace) else none
  | [] => none

/-- `\s*` -/
def dropSpaces0 (cs : List Char) : List Char := cs.dropWhile isPySpace

/-- Consume exactly three digits followed by a word boundary (`(\d{3})\b`),
returning their numeric value. -/
def takeCode3 (cs : List Char) : Option (Nat × List Char) :=
  match cs with
  | d1 :: d2 :: d3 :: rest =>
    if [d1, d2, d3].all isAsciiDigit then
      match rest with
      | [] => some (digitsVal [d1, d2, d3], [])
      | c :: _ => if isWordChar c then none else some (digitsVal [d1, d2, d3], rest)
    else none
  | _ => none

/-- `incidents.TB_START_RE` is the literal marker. -/
def TB_MARK : String := "Traceback (most recent call last):"

def tbStartSearch (ln : String) : Bool := strContains ln TB_MARK

/-- Exception-class suffixes of `incidents.EXC_LINE_RE`. -/
def excSuffixes : List String :=
  ["Error", "Exception", "Timeout", "Failure", "Unavailable"]

/-- `(?:: .*)?$` tail of `EXC_LINE_RE`. -/
def excLineTail (cs : List Char) : Bool :=
  match cs with
  | [] => true
  | ':' :: ' ' :: _ => true
  | _ => false

/-- After the leading `[A-Za-z_]`, scan `[\w.]*?` positions for one of the
class suffixes followed by a valid tail. -/
def excLineScanFrom : List Char → Bool
  | [] => false
  | c :: rest =>
    (excSuffixes.any fun suf =>
      suf.data.isPrefixOf (c :: rest) && excLineTail ((c :: rest).drop suf.length))
    || ((isWordChar c || c = '.') && excLineScanFrom rest)

/-- `incidents.EXC_LINE_RE.match`: `^[A-Za-z_][\w.]*?(Error|Exception|
Timeout|Failure|Unavailable)(?:: .*)?$`. -/
def excLineMatch (cs : List Char) : Bool :=
  match cs with
  | [] => false
  | c :: rest => (isAsciiAlpha c || c = '_') && excLineScanFrom rest

/-- `incidents.APP_FRAME_RE.match`:
`^\s*File\s+"(/app/[^"]+)",\s+line\s+(\d+),\s+in\s+([A-Za-z_]\w*)` —
returns (path, line number text, function name). -/
def matchAppFrame (cs : List Char) : Option (String × String × String) := do
  let cs := dropSpaces0 cs
  let cs ← dropLit "File".data cs
  let cs ← dropSpaces1 cs
  let cs ← dropLit "\"/app/".data cs
  let pathTail := cs.takeWhile (fun c => c ≠ '"')
  if pathTail = [] then none else
  let cs := cs.drop pathTail.length
  let cs ← dropLit "\",".data cs
  let cs ← dropSpaces1 cs
  let cs ← dropLit "line".data cs
  let cs ← dropSpaces1 cs
  let (digits, cs) := takeDigits cs
  if digits = [] then none else
  let cs ← dropLit ",".data cs
  let cs ← dropSpaces1 cs
  let cs ← dropLit "in".data cs
  let cs ← dropSpaces1 cs
  match cs with
  | f :: rest =>
    if isAsciiAlpha f || f = '_' then
      let fTail := rest.takeWhile isWordChar
      some (⟨'/' :: 'a' :: 'p' :: 'p' :: '/' :: pathTail⟩, ⟨digits⟩, ⟨f :: fTail⟩)
    else none
  | [] => none

/-- `incidents.APP_NAME_RE`: `"ContainerAppName"\s*:\s*"([^"]+)"` —
attempt at a fixed position. -/
def matchAppNameAt (cs : List Char) : Option String := do
  let cs ← dropLit "\"ContainerAppName\"".data cs
  let cs := dropSpaces0 cs
  let cs ← dropLit ":".data cs
  let cs := dropSpaces0 cs
  let cs ← dropLit "\"".data cs
  let nameChars := cs.takeWhile (fun c => c ≠ '"')
  if nameChars = [] then none else
  match cs.drop nameChars.length with
  | '"' :: _ => some ⟨nameChars⟩
  | _ => none

/-- `re.search` of APP_NAME_RE over a line. -/
def searchAppName : List Char → Option String
  | [] => none
  | c :: rest =>
    match matchAppNameAt (c :: rest) with
    | some v => some v
    | none => searchAppName rest

/-- The 5xx banner search of `_prelude_two_before_tb`:
`re.search(r'"HTTP/1\.\d"\s*5\d{2}\b', ln)`. -/
def matchHttp5xxBannerAt (cs : List Char) : Option Unit := do
  let cs ← dropLit "\"HTTP/1.".data cs
  match cs with
  | d :: '"' :: rest =>
    if ¬ isAsciiDigit d then none else
    let rest := dropSpaces0 rest
    match rest with
    | '5' :: d2 :: d3 :: tail =>
      if isAsciiDigit d2 ∧ isAsciiDigit d3 then
        match tail with
        | [] => some ()
        | t :: _ => if isWordChar t then none else some ()
      else none
    | _ => none
  | _ => none

def searchHttp5xxBanner : List Char → Bool
  | [] => false
  | c :: rest => (matchHttp5xxBannerAt (c :: rest)).isSome || searchHttp5xxBanner rest

/-- HTTP methods of `HTTP_LINE_RX_1` / `HTTP_LINE_RX_2` (alternation
order), lowercase for the case-insensitive comparison. -/
def httpMethods : List String :=
  ["get", "post", "put", "delete", "patch", "head", "options"]

/-- Try one method alternative (case-insensitive), returning the matched
text uppercased as Python reports it... the scanner instead keeps the raw
matched slice, so here we return the method as it appears in the input. -/
def dropMethodCI (cs : List Char) : Option (String × List Char) :=
  httpMethods.firstM fun m => do
    let rest ← dropLitCI m.data cs
    -- the method must be followed by whitespace (`\s+` comes next in both
    -- patterns); enforcing it here mirrors the regex alternation+continuation
    match rest with
    | c :: _ => if isPySpace c then some (⟨cs.take m.length⟩, rest) else none
    | [] => none

/-- `HTTP_LINE_RX_1` at a fixed position (must start with `"`):
`"\s*(METHOD)\s+(/[^"\s]*)\s+HTTP/\d\.\d"\s+(\d{3})\b`, case-insensitive.
Returns (method, path, status, rest-after-match). -/
def matchHttp1At (cs : List Char) : Option (String × String × Nat × List Char) := do
  let cs1 ← dropLit "\"".data cs
  let cs1 := dropSpaces0 cs1
  let (method, cs2) ← dropMethodCI cs1
  let cs2 ← dropSpaces1 cs2
  match cs2 with
  | '/' :: pathRest =>
    let pathTail := pathRest.takeWhile (fun c => c ≠ '"' && ¬ isPySpace c)
    let cs3 := pathRest.drop pathTail.length
    let cs3 ← dropSpaces1 cs3
    let cs3 ← dropLitCI "http/".data cs3
    match cs3 with
    | d1 :: '.' :: d2 :: '"' :: cs4 =>
      if ¬ (isAsciiDigit d1 ∧ isAsciiDigit d2) then none else do
      let cs4 ← dropSpaces1 cs4
      let (code, rest) ← takeCode3 cs4
      some (method, ⟨'/' :: pathTail⟩, code, rest)
    | _ => none
  | _ => none

/-- `HTTP_LINE_RX_2` at a fixed position (must start with `HTTP Request:`):
`HTTP Request:\s*(METHOD)\s+(\S+)\s+"HTTP/\d\.\d\s+(\d{3})\b`,
case-insensitive.  Returns (method, url, status, rest-after-match). -/
def matchHttp2At (cs : List Char) : Option (String × String × Nat × List Char) := do
  let cs1 ← dropLitCI "http request:".data cs
  let cs1 := dropSpaces0 cs1
  let (method, cs2) ← dropMethodCI cs1
  let cs2 ← dropSpaces1 cs2
  let urlChars := cs2.takeWhile (fun c => ¬ isPySpace c)
  if urlChars = [] then none else do
  let cs3 := cs2.drop urlChars.length
  let cs3 ← dropSpaces1 cs3
  let cs3 ← dropLitCI "\"http/".data cs3
  match cs3 with
  | d1 :: '.' :: d2 :: cs4 =>
    if ¬ (isAsciiDigit d1 ∧ isAsciiDigit d2) then none else do
    let cs4 ← dropSpaces1 cs4
    let (code, rest) ← takeCode3 cs4
    some (method, ⟨urlChars⟩, code, rest)
  | _ => none

/-- `HTTP_STATUS_IN_JSON_RX` at a fixed position: `"status"\s*:\s*(\d{3})\b`.
Returns (status, chars consumed by the match). -/
def matchJsonStatusAt (cs : List Char) : Option (Nat × Nat) := do
  let cs1 ← dropLit "\"status\"".data cs
  let cs2 := dropSpaces0 cs1
  let cs2 ← dropLit ":".data cs2
  let cs3 := dropSpaces0 cs2
  let (code, rest) ← takeCode3 cs3
  some (code, cs.length - rest.length)

/-- First `\b(\d{3})\b` in a text (used by `incidents._record_level`);
`prev` is the character before the current position. -/
def findBounded3Digits (prev : Option Char) : List Char → Option Nat
  | [] => none
  | c :: tl =>
    let boundaryBefore : Bool := match prev with
      | none => true
      | some p => ¬ isWordChar p
    let hereVal : Option Nat := match c :: tl with
      | d1 :: d2 :: d3 :: rest =>
        if [d1, d2, d3].all isAsciiDigit &&
            (match rest with
             | [] => true
             | r :: _ => ¬ isWordChar r) then
          some (digitsVal [d1, d2, d3])
        else none
      | _ => none
    match boundaryBefore, hereVal with
    | true, some v => some v
    | _, _ => findBounded3Digits (some c) tl

/-! ## incidents.py — per-blob incident summarizer -/

/-- One HTTP error candidate of `_scan_http_errors_in_text`. -/
structure HttpErr where
  code : Nat
  kind : String
  method : String
  uri : String
  line : String
deriving DecidableEq, Repr

/-- `incidents.IGNORED_HTTP_PATHS` -/
def IGNORED_HTTP_PATHS : List String := ["/", "/health", "/metrics", "/livez", "/readyz"]

/-- `incidents.INTERNAL_HINTS` -/
def INTERNAL_HINTS : List String := ["/site-packages/", "/usr/local/lib/python"]

/-- `incidents.AZ_META_KEYS` -/
def AZ_META_KEYS : List String :=
  ["ContainerAppName", "EnvironmentName", "RevisionName", "ContainerImage"]

/-- `finditer` over `HTTP_LINE_RX_1` with the candidate filter of
`_scan_http_errors_in_text`: keep matches with
`code >= 400 and not (code in (200, 204) and path in IGNORED_HTTP_PATHS)`.
`fuel` only bounds the recursion; it is instantiated with the text length,
which suffices because every step consumes at least one character. -/
def scanHttp1Fuel : Nat → List Char → List HttpErr
  | 0, _ => []
  | _ + 1, [] => []
  | fuel + 1, c :: tl =>
    match matchHttp1At (c :: tl) with
    | some (method, path, code, rest) =>
      let consumed := (c :: tl).length - rest.length
      let entry : List HttpErr :=
        if 400 ≤ code ∧ ¬ ((code = 200 ∨ code = 204) ∧ path ∈ IGNORED_HTTP_PATHS)
        then [{ code, kind := "api", method, uri := path,
                line := ⟨(c :: tl).take consumed⟩ }]
        else []
      entry ++ scanHttp1Fuel fuel rest
    | none => scanHttp1Fuel fuel tl

/-- `finditer` over `HTTP_LINE_RX_2`, keeping candidates with `code >= 400`. -/
def scanHttp2Fuel : Nat → List Char → List HttpErr
  | 0, _ => []
  | _ + 1, [] => []
  | fuel + 1, c :: tl =>
    match matchHttp2At (c :: tl) with
    | some (method, url, code, rest) =>
      let consumed := (c :: tl).length - rest.length
      let entry : List HttpErr :=
        if 400 ≤ code then
          [{ code, kind := "client", method, uri := url,
             line := ⟨(c :: tl).take consumed⟩ }]
        else []
      entry ++ scanHttp2Fuel fuel rest
    | none => scanHttp2Fuel fuel tl

/-- `finditer` over `HTTP_STATUS_IN_JSON_RX`, keeping `code >= 400`; the
recorded line is the `s[max(0, start - 160) : end + 160]` context slice,
so the scanner carries the whole text and the current position. -/
def scanJsonStatusFuel (whole : List Char) : Nat → Nat → List Char → List HttpErr
  | 0, _, _ => []
  | _ + 1, _, [] => []
  | fuel + 1, pos, c :: tl =>
    match matchJsonStatusAt (c :: tl) with
    | some (code, consumed) =>
      let entry : List HttpErr :=
        if 400 ≤ code then
          let start := pos - 160
          let stop := pos + consumed + 160
          [{ code, kind := "json", method := "n/a", uri := "n/a",
             line := ⟨(whole.drop start).take (stop - start)⟩ }]
        else []
      entry ++ scanJsonStatusFuel whole fuel (pos + consumed) ((c :: tl).drop consumed)
    | none => scanJsonStatusFuel whole fuel (pos + 1) tl

/-- `incidents._scan_http_errors_in_text`: the three scans appended in
source order. -/
def scan_http_errors_in_text (s : String) : List HttpErr :=
  scanHttp1Fuel s.data.length s.data
    ++ scanHttp2Fuel s.data.length s.data
    ++ scanJsonStatusFuel s.data s.data.length 0 s.data

/-- Sort key of `_pick_worst_http`: `(-(500 <= code <= 599), -code)`. -/
def errKey (e : HttpErr) : Int × Int :=
  ((if 500 ≤ e.code ∧ e.code ≤ 599 then -1 else 0), -(e.code : Int))

def keyLt (a b : Int × Int) : Bool := a.1 < b.1 || (a.1 = b.1 && a.2 < b.2)

/-- `incidents._pick_worst_http`: first element of the stable sort by
`errKey`, i.e. the earliest candidate with the minimal key. -/
def pick_worst_http (errs : List HttpErr) : Option HttpErr :=
  match errs with
  | [] => none
  | e :: rest =>
    some (rest.foldl (fun best x => if keyLt (errKey x) (errKey best) then x else best) e)

/-- `incidents._http_code_to_severity` -/
def http_code_to_severity (code : Nat) : String :=
  if 500 ≤ code then "CRITICAL" else "ERROR"

/-- The `properties` value of a record as used by `_record_text`: either a
dict carrying a string `Log`, or some other dict standing for its
`json.dumps` serialization. -/
inductive PropsVal where
  | withLog (log : String)
  | other (dumpedJson : String)
deriving DecidableEq, Repr

/-- A parsed EventHub/Azure Monitor record, with the dict keys read by
`incidents.py` (`none` = absent key). -/
structure IncRecord where
  message : Option String := none
  msg : Option String := none
  properties : Option PropsVal := none
  level : Option PyVal := none
  capLevel : Option PyVal := none
  severity : Option PyVal := none
  severityLevel : Option PyVal := none
deriving DecidableEq, Repr

/-- `incidents._record_text` -/
def record_text (rec : IncRecord) : String :=
  match rec.message with
  | some v => v
  | none =>
    match rec.msg with
    | some v => v
    | none =>
      match rec.properties with
      | some (.withLog v) => v
      | some (.other d) => d
      | none => ""

/-- Python truthiness of the level values. -/
def pvTruthy : PyVal → Bool
  | .vnone => false
  | .vint n => n ≠ 0
  | .vstr s => s ≠ ""

/-- Left-associated Python `or` over the level candidates: first truthy
value, else the last value. -/
def orChain : List PyVal → PyVal
  | [] => .vnone
  | [x] => x
  | x :: rest => if pvTruthy x then x else orChain rest

/-- `incidents._record_level` (lines 328-353). -/
def record_level (rec : IncRecord) : String :=
  let val := orChain
    [(rec.level).getD .vnone, (rec.capLevel).getD .vnone,
     (rec.severity).getD .vnone, (rec.severityLevel).getD .vnone]
  let fromField : Option String :=
    match val with
    | .vint n => some (((NUM_LEVEL_MAP.lookup n).getD "INFO"))
    | .vstr s =>
      let u := pyUpper (pyStrip s)
      if (LEVEL_RANK.lookup u).isSome then some u else none
    | .vnone => none
  match fromField with
  | some lvl => lvl
  | none =>
    let txt := record_text rec
    let fromHttp : Option String :=
      match findBounded3Digits none txt.data with
      | some code =>
        if 500 ≤ code then some "ERROR"
        else if 400 ≤ code then some "WARNING"
        else none
      | none => none
    match fromHttp with
    | some lvl => lvl
    | none =>
      let up := pyUpper txt
      if strContains up "CRITICAL" then "CRITICAL"
      else if strContains up "ERROR" then "ERROR"
      else if strContains up "WARNING" then "WARNING"
      else "INFO"

/-- `incidents._max_level_rank`, including the early break once CRITICAL
rank is reached (the break does not change the result but is kept). -/
def maxLevelRankLoop (best : String) (bestRank : Nat) : List IncRecord → String × Nat
  | [] => (best, bestRank)
  | r :: rest =>
    let lvl := record_level r
    let rk := lookupD LEVEL_RANK lvl 20
    if rk > bestRank then
      if rk ≥ lookupD LEVEL_RANK "CRITICAL" 20 then (lvl, rk)
      else maxLevelRankLoop lvl rk rest
    else maxLevelRankLoop best bestRank rest

def max_level_rank (records : List IncRecord) : String × Nat :=
  maxLevelRankLoop "DEBUG" (lookupD LEVEL_RANK "DEBUG" 20) records

def rstripCR (s : String) : String :=
  ⟨(s.data.reverse.dropWhile (fun c => c = '\r')).reverse⟩

/-- `incidents._join_console_lines` -/
def join_console_lines (records : List IncRecord) : List String :=
  records.flatMap fun r =>
    let msg := record_text r
    if msg = "" then []
    else ((pySplitLines msg).map rstripCR).filter (fun ln => pyStrip ln ≠ "")

/-- `incidents._is_meta_line` -/
def is_meta_line (s : String) : Bool :=
  let t := pyStrip s
  strStartsWith t (String.singleton lbraceC) &&
    strContains t (String.singleton rbraceC) &&
    AZ_META_KEYS.any (fun k => strContains t k)

/-- `incidents._guess_source` -/
def guess_source (lines : List String) : String :=
  match lines.findSome? (fun ln => searchAppName ln.data) with
  | some name => name
  | none => "ContainerAppConsoleLogs"

/-- `incidents._prelude_two_before_tb`: examines the (up to) two lines
before the traceback marker, keeping ASGI banners and 5xx banners. -/
def prelude_two_before_tb (before : List String) : List String :=
  let out := before.drop (before.length - 2)
  out.flatMap fun ln =>
    (if strContains ln "Exception in ASGI application" then [pyStrip ln] else [])
      ++ (if searchHttp5xxBanner ln.data then [pyStrip ln] else [])

/-- `ln.split(":", 1)[0]` -/
def splitFirstColonHead (s : String) : String :=
  ⟨s.data.takeWhile (fun c => c ≠ ':')⟩

/-- `incidents._exception_chain` over the lines from the marker on:
collect class names of matching lines, collapsing consecutive duplicates,
capped at 8. -/
def exception_chain (fromTb : List String) : List String :=
  let chain := fromTb.foldl (fun chain ln =>
    if excLineMatch (stripChars ln.data) then
      let cls := pyStrip (splitFirstColonHead ln)
      if chain = [] ∨ chain.getLast? ≠ some cls then chain ++ [cls] else chain
    else chain) []
  chain.take 8

/-- Leading keywords that make the following line count as a code
statement in `_app_frames`. -/
def codeStarters : List String := ["return", "raise", "await", "with", "for", "if"]

/-- `incidents._app_frames` body: walk lines with one-line lookahead. -/
def appFramesGo : List String → List String
  | [] => []
  | ln :: rest =>
    match matchAppFrame ln.data with
    | none => appFramesGo rest
    | some (path, lineno, func) =>
      let code :=
        match rest with
        | [] => ""
        | nxt :: _ =>
          if strStartsWith nxt "    " ||
              codeStarters.any (fun w => strStartsWith ⟨lstripChars nxt.data⟩ w) then
            pyStrip nxt
          else ""
      if INTERNAL_HINTS.any (fun h => strContains ln h) then appFramesGo rest
      else
        (path ++ ":" ++ lineno ++ " in " ++ func ++
          (if code = "" then "" else " → " ++ code)) :: appFramesGo rest

/-- `incidents._app_frames`: keep only the last 3 frames. -/
def app_frames (lines : List String) : List String :=
  let frames := appFramesGo lines
  frames.drop (frames.length - 3)

/-- Split the line list at the first traceback marker:
`(lines before, lines from the marker on)`; `none` when no marker. -/
def splitAtTbGo (before : List String) : List String → Option (List String × List String)
  | [] => none
  | ln :: rest =>
    if tbStartSearch ln then some (before.reverse, ln :: rest)
    else splitAtTbGo (ln :: before) rest

def splitAtTb (lines : List String) : Option (List String × List String) :=
  splitAtTbGo [] lines

/-- Raw-snippet fallback of `_compose_content`: up to 15 lines from the
marker, excluding metadata and internal-library lines. -/
def keptSnippet : List String → Nat → List String
  | [], _ => []
  | _, 0 => []
  | ln :: rest, n + 1 =>
    if is_meta_line ln then keptSnippet rest (n + 1)
    else if INTERNAL_HINTS.any (fun h => strContains ln h) then keptSnippet rest (n + 1)
    else ln :: keptSnippet rest n

/-- `incidents._compose_content` (lines 243-278). -/
def compose_content (lines : List String) : Option String :=
  match splitAtTb lines with
  | none => none
  | some (before, fromTb) =>
    let prelude := prelude_two_before_tb before
    let chain := exception_chain fromTb
    let chain_txt := pyJoin " → " chain
    let frames := app_frames lines
    let out := prelude
      ++ (if chain_txt ≠ "" then ["Errors: " ++ chain_txt] else [])
      ++ (if frames ≠ [] then "At:" :: frames else [])
    let out := if out = [] then "(raw snippet)" :: keptSnippet fromTb 15 else out
    some (pyStrip (joinLines out))

/-- `incidents._http_fallback_content`: `(content, severity)` or `none`. -/
def http_fallback_content (lines : List String) : Option (String × String) :=
  let raw_text := joinLines lines
  match pick_worst_http (scan_http_errors_in_text raw_text) with
  | none => none
  | some worst =>
    let headline := "HTTP " ++ toString worst.code ++ " " ++ worst.method
      ++ " " ++ worst.uri
    let out := ["Headline: " ++ headline, "Snippet:", pyStrip worst.line]
    let frames := app_frames lines
    let out := out ++ (if frames ≠ [] then "At:" :: frames else [])
    some (pyStrip (joinLines out), http_code_to_severity worst.code)

structure Incident where
  source : String
  severity : String
  content : String
  ts : Option String
deriving DecidableEq, Repr

structure SumStats where
  records : Nat
  max_level : Option String
  kept : Nat
  dropped_below_min : Bool
  used_fallback_http : Bool
deriving DecidableEq, Repr

/-- Python truthiness of an `Optional[str]`. -/
def optStrTruthy : Option String → Bool
  | none => false
  | some s => s ≠ ""

/-- `incidents.summarize_records` (lines 61-107). -/
def summarize_records (records : List IncRecord) (min_level : String) :
    List Incident × SumStats :=
  let stats0 : SumStats :=
    { records := records.length, max_level := none, kept := 0,
      dropped_below_min := false, used_fallback_http := false }
  let (max_lvl_str, _) := max_level_rank records
  let stats1 := { stats0 with max_level := some max_lvl_str }
  let min_level := pyUpper (pyStrip (if min_level = "" then "WARNING" else min_level))
  if lookupD LEVEL_RANK max_lvl_str 20 < lookupD LEVEL_RANK min_level 30 then
    ([], { stats1 with dropped_below_min := true })
  else
    let lines := (join_console_lines records).filter (fun ln => ¬ is_meta_line ln)
    let content := compose_content lines
    let severity : Option String := if optStrTruthy content then some "ERROR" else none
    let (content, severity, usedFb) :=
      if ¬ optStrTruthy content then
        match http_fallback_content lines with
        | some (c, s) => (some c, some s, true)
        | none => (content, severity, false)
      else (content, severity, false)
    let stats2 := { stats1 with used_fallback_http := usedFb }
    if ¬ optStrTruthy content then ([], stats2)
    else
      let incident : Incident :=
        { source := guess_source lines
          severity := if optStrTruthy severity then severity.getD "ERROR" else "ERROR"
          content := content.getD ""
          ts := none }
      ([incident], { stats2 with kept := 1 })

/-! ## extract_incident_to_pg.py — episode stitcher -/

/-- `utc_iso` of extract_incident_to_pg.py.  `datetime.now(timezone.utc)`
is passed in explicitly as `now` (already an ISO string);
`astimezone(timezone.utc)` on naive values is modelled as
interpreting them as UTC (the containers run on UTC clocks). -/
def utc_iso (now : String) (ts : Option String) : String :=
  match ts with
  | none => now
  | some t =>
    if t = "" then now
    else
      match parseIso (t.replace "Z" "+00:00") with
      | none => now
      | some d => dtIsoformat (dtToUtc d)

/-- `extract_incident_to_pg.is_tb_start` -/
def is_tb_start (line : String) : Bool := strContains line TB_MARK

/-- `extract_incident_to_pg.is_tb_frame_or_cont` -/
def is_tb_frame_or_cont (line : String) : Bool :=
  let ls : String := ⟨lstripChars line.data⟩
  strStartsWith ls "File \"" ||
  strStartsWith ls "File \x27" ||
  strStartsWith ls "During handling of the above exception" ||
  strStartsWith line "  " ||
  strStartsWith line "\t"

/-- Exception-class suffixes of `extract_incident_to_pg.EXC_TAIL_RE`
(distinct from the incidents.py set). -/
def excTailSuffixes : List String := ["Error", "Exception", "Failure", "Exit"]

/-- After the suffix, `EXC_TAIL_RE` requires `\s*:` then anything. -/
def excTailRestOk (cs : List Char) : Bool :=
  match cs.dropWhile isPySpace with
  | ':' :: _ => true
  | _ => false

/-- `[\w\.]+(?:Error|Exception|Failure|Exit)` scan: at least one word/dot
character, then a suffix whose remainder satisfies `\s*:(.*)$`. -/
def excTailScanFrom : List Char → Bool
  | [] => false
  | c :: rest =>
    (isWordChar c || c = '.') &&
      ((excTailSuffixes.any fun suf =>
          suf.data.isPrefixOf rest && excTailRestOk (rest.drop suf.length))
        || excTailScanFrom rest)

/-- `extract_incident_to_pg.is_exception_tail`:
`^\s*([\w\.]+(?:Error|Exception|Failure|Exit))\s*:(.*)$`. -/
def is_exception_tail (line : String) : Bool :=
  excTailScanFrom (line.data.dropWhile isPySpace)

/-- First Python-truthy value of an optional-string chain, else `dflt`. -/
def firstTruthyStr (xs : List (Option String)) (dflt : String) : String :=
  match xs with
  | [] => dflt
  | x :: rest =>
    match x with
    | some s => if s ≠ "" then s else firstTruthyStr rest dflt
    | none => firstTruthyStr rest dflt

/-- First Python-truthy value of an optional-string chain, else the chain
value itself (`a or b or c` keeps the last value when all are falsy). -/
def firstTruthyOpt (xs : List (Option String)) : Option String :=
  match xs with
  | [] => none
  | [x] => x
  | x :: rest =>
    match x with
    | some s => if s ≠ "" then some s else firstTruthyOpt rest
    | none => firstTruthyOpt rest

/-- A record as read by `extract_incident_to_pg.read_content_and_meta` and
the stitcher loop (`none` = absent key; dict-valued `log` content is
modelled by its serialized form). -/
structure ERecord where
  message : Option String := none
  msg : Option String := none
  propLog : Option String := none
  propLogs : Option String := none
  capPropLog : Option String := none
  logField : Option String := none
  category : Option String := none
  capCategory : Option String := none
  source : Option String := none
  resourceId : Option String := none
  app : Option String := none
  timeGenerated : Option String := none
  timestamp : Option String := none
  ts : Option String := none
  level : Option PyVal := none
  capLevel : Option PyVal := none
  severity : Option PyVal := none
deriving DecidableEq, Repr

/-- `extract_incident_to_pg.read_content_and_meta` → (content, source, ts). -/
def read_content_and_meta (now : String) (obj : ERecord) : String × String × String :=
  let content := firstTruthyStr
    [obj.message, obj.msg, obj.propLog, obj.propLogs, obj.capPropLog, obj.logField] ""
  let cat := pyStrip (firstTruthyStr [obj.category, obj.capCategory] "")
  let src := firstTruthyStr [obj.source, some cat, obj.resourceId] "unknown"
  let src := if cat ≠ "" ∧ optStrTruthy obj.app then (obj.app.getD "") ++ "/" ++ cat
             else src
  let tsv := firstTruthyOpt [obj.timeGenerated, obj.timestamp, obj.ts]
  (content, src, utc_iso now (if optStrTruthy tsv then tsv else none))

/-- The `current` episode dict of `process_blob_text`. -/
structure EpSnapshot where
  lines : List String
  headline : String
  fallback_headline : String
  source : String
  ts_first : String
  ts_last : String
  severity : String
  count : Nat
  seen_exc_tail : Bool
deriving DecidableEq, Repr

/-- Mutable locals of the stitching loop in `process_blob_text`.
`flushed` records each `current` value at the moment `flush_current()`
fires with a non-empty episode (the subsequent doc building per episode
is downstream of the stitching property under study).
`last_source_for_prev` / `last_ts_for_prev` are written by the source but
never read; they are carried for fidelity. -/
structure StitchState where
  current : Option EpSnapshot := none
  prev_nonempty_message : String := ""
  last_source_for_prev : String := "unknown"
  last_ts_for_prev : Option String := none
  flushed : List EpSnapshot := []
deriving DecidableEq, Repr

/-- A fresh episode opened at a traceback-start line. -/
def newEpisode (text prevMsg source ts sev : String) : EpSnapshot :=
  { lines := [text], headline := prevMsg, fallback_headline := prevMsg,
    source, ts_first := ts, ts_last := ts, severity := sev,
    count := 1, seen_exc_tail := is_exception_tail text }

/-- One iteration of the record walk of `process_blob_text`
(lines 361-427). -/
def stitchStep (now : String) (st : StitchState) (obj : ERecord) : StitchState :=
  let (content, source, ts0) := read_content_and_meta now obj
  let sev := coerce_severity (orChain
    [(obj.level).getD .vnone, (obj.capLevel).getD .vnone, (obj.severity).getD .vnone])
  let ts := utc_iso now (some ts0)
  let text := rstripNewlines content
  if pyStrip text = "" then st
  else
    match st.current with
    | none =>
      if is_tb_start text then
        { st with current := some (newEpisode text st.prev_nonempty_message source ts sev) }
      else
        { st with prev_nonempty_message := text,
                  last_source_for_prev := source,
                  last_ts_for_prev := some ts }
    | some cur =>
      let cur := { cur with
        ts_last := ts
        severity :=
          if lookupD LEVEL_ORDER sev 10 > lookupD LEVEL_ORDER cur.severity 10
          then sev else cur.severity }
      if is_tb_start text then
        { st with flushed := st.flushed ++ [cur],
                  current := some (newEpisode text st.prev_nonempty_message source ts sev) }
      else
        let cur := { cur with lines := cur.lines ++ [text], count := cur.count + 1 }
        if is_exception_tail text then
          { st with current := some { cur with seen_exc_tail := true } }
        else if ¬ is_tb_frame_or_cont text ∧ cur.seen_exc_tail then
          { st with flushed := st.flushed ++ [cur],
                    current := none,
                    prev_nonempty_message := text,
                    last_source_for_prev := source,
                    last_ts_for_prev := some ts }
        else
          { st with current := some cur }

/-- The full stitching walk of `process_blob_text`, including the
end-of-blob `flush_current()`: returns the flushed episodes in order. -/
def process_blob_episodes (now : String) (records : List ERecord) : List EpSnapshot :=
  let st := records.foldl (stitchStep now) {}
  match st.current with
  | some cur => st.flushed ++ [cur]
  | none => st.flushed

/-- `extract_incident_to_pg.extract_exception_summary`: from the last
non-empty line of the traceback text, split at the first colon. -/
def extract_exception_summary (traceback_text : String) :
    Option String × Option String :=
  if traceback_text = "" then (none, none)
  else
    let tail := ((pySplitLines traceback_text).map pyStrip).filter (fun l => l ≠ "")
    match tail.getLast? with
    | none => (none, none)
    | some last =>
      if strContains last ":" then
        let etype := splitFirstColonHead last
        let msg : String := ⟨(last.data.drop (etype.data.length + 1))⟩
        (some (pyStrip etype), some (pyStrip msg))
      else (some (pyStrip last), none)

/-! ## normalize.py — record normalizer

`modules/normalize.py` imports only `typing`, `json` and `os`; its live
`normalize_payload` (lines 111-169) nevertheless calls `utc_iso`,
`classify_severity`, `_level_ok` and `sha1_id`, which are defined in
`apps/ingestor/main.py` but neither defined nor imported in
`modules/normalize.py`.  In Python a function resolves free names in its
own module's globals, so reaching any of those calls raises `NameError`.
The embedding returns an explicit error at the first such call
(`utc_iso`, line 144); the code after it is unreachable. -/

inductive PyExc where
  | nameError (name : String)
deriving DecidableEq, Repr

/-- An entry of a `records` array, as far as `is_metric_payload` looks at
it: a dict that has / lacks `metricName`, or a non-dict value. -/
inductive RecEntry where
  | dictWithMetricName
  | dictOther
  | nonDict
deriving DecidableEq, Repr

structure NProps where
  log : Option String := none
  containerAppName : Option String := none
  containerName : Option String := none
  revisionName : Option String := none
deriving DecidableEq, Repr

/-- `payload.get("log")`: a dict (carried with its `json.dumps` form) or
a non-dict value. -/
inductive NLog where
  | dict (dumpedJson : String)
  | nonDict
deriving DecidableEq, Repr

/-- A parsed payload as read by `normalize_payload` / `is_metric_payload`
/ `is_allowed_log`.  For `message` / `msg` the outer `Option` is key
presence (checked by `is_allowed_log`) and the inner `Option` is a string
value versus a null/falsy one. -/
structure NPayload where
  records : Option (List RecEntry) := none
  metricNameTop : Bool := false
  messageKey : Option (Option String) := none
  msgKey : Option (Option String) := none
  content : Option String := none
  properties : Option NProps := none
  log : Option NLog := none
  category : Option String := none
  capCategory : Option String := none
  containerAppName : Option String := none
  containerName : Option String := none
  revisionName : Option String := none
  timeGenerated : Option String := none
  timestamp : Option String := none
  time : Option String := none
  ts : Option String := none
deriving DecidableEq, Repr

/-- `ALLOW_CATEGORIES` with the default environment value
`ContainerAppConsoleLogs,ContainerAppSystemLogs`. -/
def ALLOW_CATEGORIES : List String :=
  ["ContainerAppConsoleLogs", "ContainerAppSystemLogs"]

/-- `normalize.is_metric_payload` -/
def is_metric_payload (p : NPayload) : Bool :=
  match p.records with
  | some entries =>
    match entries.head? with
    | some .dictWithMetricName => true
    | some .dictOther => false
    | some .nonDict => false
    | none => false
  | none => p.metricNameTop

/-- `normalize.is_allowed_log` -/
def is_allowed_log (p : NPayload) : Bool :=
  let cat := pyStrip (firstTruthyStr [p.category, p.capCategory] "")
  (cat ∈ ALLOW_CATEGORIES) ||
    (cat = "" && (p.messageKey.isSome || p.msgKey.isSome))

/-- The canonical doc that `normalize_payload` is written to produce.  No
value of this type is ever constructed: the function errors before
building it. -/
structure NormDoc where
  id : String
  source : String
  ts : String
  content : String
  severity : String
deriving DecidableEq, Repr

/-- The content-selection chain of `normalize_payload` (lines 119-127). -/
def normalizeContent (p : NPayload) : Option String :=
  let props := p.properties.getD {}
  let log_line := props.log
  firstTruthyOpt
    [p.messageKey.getD none, p.msgKey.getD none, p.content,
     (match p.log with
      | some (.dict d) => some d
      | _ => none),
     log_line]

/-- `normalize.normalize_payload` (the live definition, lines 111-169).
After metric / category filtering and content extraction it reaches
`ts_iso = utc_iso(...)` (line 144); `utc_iso` is an unbound name in
`modules/normalize.py`, so the call raises `NameError`. -/
def normalize_payload (p : NPayload) : Except PyExc (Option NormDoc) :=
  if is_metric_payload p then .ok none
  else if ¬ is_allowed_log p then .ok none
  else
    match normalizeContent p with
    | none => .ok none
    | some content =>
      if content = "" then .ok none
      else
        -- lines 132-143 bind app/container/revision/source/ts locals
        -- (pure, unobservable), then line 144 evaluates `utc_iso(...)`:
        -- NameError, since the name is unbound in this module.
        .error (.nameError "utc_iso")

/-! ## Sorting / assoc-map helpers

Python's `sorted` and pandas' `sort_values` are modelled by a stable
insertion sort (an element is inserted after every strictly-smaller
element and before the first element it does not exceed), which is
executable by kernel reduction. -/

def insertStable {α : Type} (le : α → α → Bool) (x : α) : List α → List α
  | [] => [x]
  | y :: ys =>
    if le y x ∧ ¬ le x y then y :: insertStable le x ys
    else x :: y :: ys

def pyStableSort {α : Type} (le : α → α → Bool) (l : List α) : List α :=
  l.foldr (insertStable le) []

/-- Code-point lexicographic strict comparison (Python string `<`),
executable by kernel reduction. -/
def strLtB : List Char → List Char → Bool
  | [], [] => false
  | [], _ :: _ => true
  | _ :: _, [] => false
  | a :: as, b :: bs =>
    if a.toNat < b.toNat then true
    else if b.toNat < a.toNat then false
    else strLtB as bs

/-- Code-point lexicographic `≤` on strings. -/
def strLeB (a b : String) : Bool := ¬ strLtB b.data a.data

/-- Assoc-list lookup keyed by decidable equality (the `dict[key]` reads
of the bundler state). -/
def lookupAssoc {K V : Type} [DecidableEq K] : List (K × V) → K → Option V
  | [], _ => none
  | (k, v) :: rest, key => if key = k then some v else lookupAssoc rest key

/-! ## trace_bundler.py — batch trace-ID inference (bundle_dataframe steps 1-3) -/

/-- A dataframe row of `BatchTraceBundler.bundle_dataframe`.  `timestamp`
is the value after `pd.to_datetime(..., errors="coerce")` (`none` = NaT).
`none` elsewhere models NaN / absent. -/
structure BRow where
  trace_id : Option String := none
  service : Option String := none
  container_group : Option String := none
  container_id : Option String := none
  revision : Option String := none
  timestamp : Option DT := none
  severity : Option String := none
  message : Option String := none
  operation : Option String := none
  raw_line : Option Nat := none
  stack_trace : Option String := none
deriving DecidableEq, Repr

/-- `get_replica` of `bundle_dataframe` step 2. -/
def get_replica (r : BRow) : String :=
  firstTruthyStr [r.container_group, r.container_id, r.revision] "global"

/-- The `(service, replica)` key of the trace-borrowing memory. -/
def traceKey (r : BRow) : String × String := (r.service.getD "unknown", get_replica r)

/-- `pd.notna(t_id) and str(t_id) != "0"` -/
def validTid (r : BRow) : Option String :=
  match r.trace_id with
  | some t => if t ≠ "0" then some t else none
  | none => none

/-- Ordering used by `df.sort_values("timestamp")` (NaT sorts last; the
model uses a stable sort). -/
def tsRowLe (a b : BRow) : Bool :=
  match a.timestamp, b.timestamp with
  | none, none => true
  | none, some _ => false
  | some _, none => true
  | some x, some y => dtLe x y

/-- Assoc-map update used for `last_trace[key] = (t_id, ts)`. -/
def updAssoc {K V : Type} [DecidableEq K] (m : List (K × V)) (k : K) (v : V) :
    List (K × V) :=
  (k, v) :: m.filter (fun kv => kv.1 ≠ k)

/-- `strftime('%Y%m%d%H%M')` -/
def strftimeYmdHM (t : DT) : String :=
  pad4 t.year ++ pad2 t.month ++ pad2 t.day ++ pad2 t.hour ++ pad2 t.minute

/-- `ts.replace(minute=(ts.minute // 5) * 5, second=0, microsecond=0)` -/
def bucket5min (t : DT) : DT :=
  { t with minute := t.minute / 5 * 5, second := 0, micro := 0 }

/-- `(ts - prev_ts).total_seconds() < 30` (timedelta keeps microseconds). -/
def within30s (ts prev : DT) : Bool :=
  dtToEpochMicro ts - dtToEpochMicro prev < 30 * 1000000

/-- The synthetic bucketed id of step 3. -/
def synthId (service replica : String) (ts : DT) : String :=
  "synth-" ++ service ++ "-" ++ replica ++ "-" ++ strftimeYmdHM (bucket5min ts)

def orphanId (service replica : String) : String :=
  "orphan-" ++ service ++ "-" ++ replica ++ "-unknown"

/-- The TraceID-propagation loop of `bundle_dataframe` step 3, with the
`last_trace` session memory threaded explicitly. -/
def inferGo (last_trace : List ((String × String) × (String × Option DT))) :
    List BRow → List String
  | [] => []
  | r :: rest =>
    let key := traceKey r
    match validTid r with
    | some tid => tid :: inferGo (updAssoc last_trace key (tid, r.timestamp)) rest
    | none =>
      let borrowed : Option String :=
        match lookupAssoc last_trace key with
        | some (prev_id, some prev_ts) =>
          match r.timestamp with
          | some ts => if within30s ts prev_ts then some prev_id else none
          | none => none
        | _ => none
      match borrowed with
      | some prev_id => prev_id :: inferGo last_trace rest
      | none =>
        let fallback :=
          match r.timestamp with
          | some ts => synthId key.1 key.2 ts
          | none => orphanId key.1 key.2
        fallback :: inferGo last_trace rest

/-- `final_trace_ids` over already-sorted rows. -/
def inferTraceIds (rows : List BRow) : List String := inferGo [] rows

/-- Steps 1+3: sort by timestamp, then infer (the model's sort is stable;
`pandas.sort_values` uses an unstable quicksort, which only matters for
rows with identical timestamps). -/
def bundleInferTraceIds (rows : List BRow) : List String :=
  inferTraceIds (pyStableSort tsRowLe rows)

/-- Claim-side restatement of the borrowing rule: the most recent earlier
record (in the sorted order) that carried an explicit valid trace id and
shares the `(service, replica)` key. -/
def lastValidFor (key : String × String) (pre : List BRow) :
    Option (String × Option DT) :=
  pre.foldl (fun acc r =>
    match validTid r with
    | some tid => if traceKey r = key then some (tid, r.timestamp) else acc
    | none => acc) none

/-- Claim-side assignment: walk the rows keeping the processed ones in
`pre`; a record without a valid id borrows from `lastValidFor` when both
timestamps exist and lie within 30 seconds, and otherwise receives the
synthetic bucketed id (or the orphan id without a timestamp). -/
def specAssignGo (pre : List BRow) : List BRow → List String
  | [] => []
  | r :: rest =>
    let key := traceKey r
    let here :=
      match validTid r with
      | some tid => tid
      | none =>
        match lastValidFor key pre, r.timestamp with
        | some (prev_id, some prev_ts), some ts =>
          if within30s ts prev_ts then prev_id
          else synthId key.1 key.2 ts
        | _, some ts => synthId key.1 key.2 ts
        | _, none => orphanId key.1 key.2
    here :: specAssignGo (pre ++ [r]) rest

def specAssign (rows : List BRow) : List String := specAssignGo [] rows

/-! ## trace_bundler.py — content formatting (C9) -/

def strTake (s : String) (n : Nat) : String := ⟨s.data.take n⟩

/-- Sort key of `IncidentBundle._format_content`:
`lambda x: x.get("timestamp") or ""` (string timestamps; an
already-parsed datetime is keyed by its ISO form in the model). -/
def streamSortKey (l : IncidentLog) : String :=
  match l.timestamp with
  | none => ""
  | some (.s v) => v
  | some (.d v) => dtIsoformat v

/-- The per-log line of `IncidentBundle._format_content`: severity-tagged
message plus optional exception type and the first five stack-trace
lines. -/
def streamMkLine (log : IncidentLog) : String :=
  let sev := log.severity.getD "INFO"
  let msg := log.message.getD ""
  let line := "[" ++ sev ++ "] " ++ msg
  let line :=
    if optStrTruthy log.exception_type then
      line ++ "\n  Exception: " ++ log.exception_type.getD ""
    else line
  if optStrTruthy log.stack_trace then
    let stack_lines := ((log.stack_trace.getD "").splitOn "\n").take 5
    line ++ "\n  " ++ pyJoin "\n  " stack_lines
  else line

/-- The truncation marker (f-string of both formatters). -/
def truncMarker (omitted : Nat) : String :=
  "... (" ++ toString omitted ++ " more logs truncated)"

/-- The accumulation loop of `IncidentBundle._format_content`:
`total` is `len(self.logs)`, `emitted` is `len(lines)` so far. -/
def streamFormatLoop (total maxLen : Nat) :
    List IncidentLog → Nat → Nat → List String
  | [], _, _ => []
  | log :: rest, charCount, emitted =>
    let line := streamMkLine log
    if charCount + line.length > maxLen then [truncMarker (total - emitted)]
    else line :: streamFormatLoop total maxLen rest (charCount + line.length) (emitted + 1)

/-- `IncidentBundle._format_content` (trace_bundler.py lines 104-130). -/
def IncidentBundle.format_content (b : IncidentBundle) (maxLen : Nat) : String :=
  let sorted := pyStableSort (fun x y => strLeB (streamSortKey x) (streamSortKey y)) b.logs
  joinLines (streamFormatLoop b.logs.length maxLen sorted 0 0)

/-- `df["severity"].map(lambda x: SEVERITY_ORDER.get(x, 1))` -/
def batchSevNum (r : BRow) : Nat := lookupD SEVERITY_ORDER (r.severity.getD "") 1

/-- Internal-frame markers of `BatchTraceBundler._format_content`. -/
def BATCH_INTERNAL_MARKS : List String :=
  ["<frozen", "runpy.py", "lib/python", "site-packages"]

/-- Noise patterns suppressed when the bundle has ERROR+ records. -/
def BATCH_NOISE_MARKS : List String :=
  ["Response status: 20", "Request URL", "Job", "Scheduler"]

/-- `is_file_line` of the batch formatter. -/
def batchIsFileLine (msg : String) : Bool :=
  strContains msg "File \"" && (strContains msg ", line " || strContains msg "line ")

/-- `is_traceback_start` of the batch formatter. -/
def batchIsTbStart (msg : String) : Bool :=
  strContains msg "Traceback (most recent call last):"

/-- The three-way traceback-state update of the batch formatter: returns
`(in_traceback, skip_segment, skipped)` where `skipped = true` models the
`continue` of the internal-file-line and skipped-continuation branches. -/
def batchTbStep (inTb skipSeg : Bool) (msg : String) : Bool × Bool × Bool :=
  if batchIsTbStart msg then (true, false, false)
  else if batchIsFileLine msg then
    let is_internal := BATCH_INTERNAL_MARKS.any (fun p => strContains msg p)
    (inTb, is_internal, is_internal)
  else if strStartsWith msg " " then (inTb, skipSeg, skipSeg)
  else (false, false, false)

/-- The noise-suppression test: `has_errors` with a sub-WARNING record
whose message matches a noise pattern. -/
def batchIsNoise (hasErrors : Bool) (sev msg : String) : Bool :=
  hasErrors && decide (lookupD SEVERITY_ORDER sev 1 < 2) &&
    BATCH_NOISE_MARKS.any (fun p => strContains msg p)

/-- The emitted line of the batch formatter: severity-prefixed (or
indentation-continued) message plus the optional stack-trace appendix. -/
def batchMkLine (lastSev : Option String) (sev msg : String)
    (stack : Option String) : String :=
  let is_traceback_cont := strStartsWith msg " " || batchIsFileLine msg ||
    batchIsTbStart msg
  let is_exception_marker :=
    strContains msg "During handling of the above exception" ||
    strContains msg "The above exception was the direct cause"
  let line :=
    if lastSev = some sev ∧ (is_traceback_cont || is_exception_marker) then
      "            " ++ msg
    else "[" ++ sev ++ "] " ++ msg
  match stack with
  | some st => line ++ "\n  Stack Trace: " ++ strTake st 500 ++ "..."
  | none => line

/-- The walk of `BatchTraceBundler._format_content` (lines 398-481) with
its loop state made explicit: `seen` is `seen_messages`, `lastSev` is
`last_sev`, `inTb`/`skipSeg` are `in_traceback`/`skip_segment`
(`in_traceback` is written but never read in the source; it is kept),
`charCount`/`emitted` track the budget and `len(lines)`. -/
def batchFormatLoop (maxLen total : Nat) (hasErrors : Bool) :
    List BRow → List String → Option String → Bool → Bool → Nat → Nat →
    List String
  | [], _, _, _, _, _, _ => []
  | row :: rest, seen, lastSev, inTb, skipSeg, charCount, emitted =>
    let sev := row.severity.getD "INFO"
    let msg := pyRstrip (row.message.getD "")
    if seen.contains msg then
      batchFormatLoop maxLen total hasErrors rest seen lastSev inTb skipSeg charCount emitted
    else
      let st3 := batchTbStep inTb skipSeg msg
      if st3.2.2 then
        batchFormatLoop maxLen total hasErrors rest seen lastSev st3.1 st3.2.1 charCount emitted
      else if batchIsNoise hasErrors sev msg then
        batchFormatLoop maxLen total hasErrors rest seen lastSev st3.1 st3.2.1 charCount emitted
      else
        let line := batchMkLine lastSev sev msg row.stack_trace
        if charCount + line.length > maxLen then [truncMarker (total - emitted)]
        else
          line :: batchFormatLoop maxLen total hasErrors rest (seen ++ [msg]) (some sev)
            st3.1 st3.2.1 (charCount + line.length) (emitted + 1)

/-- `BatchTraceBundler._format_content` over a trace's rows. -/
def batch_format_content (maxLen : Nat) (rows : List BRow) : String :=
  if rows = [] then ""
  else
    let hasErrors := rows.any (fun r => batchSevNum r ≥ lookupD SEVERITY_ORDER "ERROR" 1)
    let sorted := pyStableSort tsRowLe rows
    joinLines (batchFormatLoop maxLen rows.length hasErrors sorted [] none false false 0 0)

/-! ## trace_bundler.py — content fingerprint (C8)

`_generate_fingerprint` canonicalizes each line with a fixed sequence of
`re.sub` passes, collects the set of distinct non-empty results, sorts it
and hashes the join with MD5.  Each `re.sub` pass is embedded as a
left-to-right non-overlapping scan; `fuel` is instantiated with the text
length (every step consumes at least one character). -/

/-- `re.sub(r'[a-f0-9]{N}', repl, p)`: any run of exactly `N` hex digits
starting at the scan position (no boundary assertions in the pattern). -/
def subHexRun (n : Nat) (repl : List Char) : Nat → List Char → List Char
  | 0, cs => cs
  | _ + 1, [] => []
  | fuel + 1, c :: tl =>
    let first := (c :: tl).take n
    if first.length = n ∧ first.all isLowerHexDigit then
      repl ++ subHexRun n repl fuel ((c :: tl).drop n)
    else c :: subHexRun n repl fuel tl

/-- `re.sub(r'0x[a-f0-9]+', '[hex]', p)` -/
def subHexLit : Nat → List Char → List Char
  | 0, cs => cs
  | _ + 1, [] => []
  | fuel + 1, c :: tl =>
    match c, tl with
    | '0', 'x' :: h :: more =>
      if isLowerHexDigit h then
        let run := (h :: more).takeWhile isLowerHexDigit
        "[hex]".data ++ subHexLit fuel ((h :: more).drop run.length)
      else c :: subHexLit fuel tl
    | _, _ => c :: subHexLit fuel tl

/-- Match attempt for
`\d{4}-\d{2}-\d{2}[t\s]\d{2}:\d{2}:\d{2}(\.\d+)?(z|[+-]\d{2}:?\d{2})?`
at a fixed position (input already lowercased); returns the rest after
the match. -/
def matchIsoTsAt (cs : List Char) : Option (List Char) :=
  match cs with
  | y1 :: y2 :: y3 :: y4 :: '-' :: m1 :: m2 :: '-' :: d1 :: d2 :: sep ::
      h1 :: h2 :: ':' :: mi1 :: mi2 :: ':' :: s1 :: s2 :: rest =>
    if [y1, y2, y3, y4, m1, m2, d1, d2, h1, h2, mi1, mi2, s1, s2].all isAsciiDigit
        ∧ (sep = 't' ∨ isPySpace sep) then
      let rest1 :=
        match rest with
        | '.' :: more =>
          let ds := more.takeWhile isAsciiDigit
          if ds = [] then rest else more.drop ds.length
        | _ => rest
      let rest2 :=
        match rest1 with
        | 'z' :: more => more
        | sgn :: a :: b :: more =>
          if (sgn = '+' ∨ sgn = '-') ∧ isAsciiDigit a ∧ isAsciiDigit b then
            match more with
            | ':' :: x :: y :: more2 =>
              if isAsciiDigit x ∧ isAsciiDigit y then more2 else rest1
            | x :: y :: more2 =>
              if isAsciiDigit x ∧ isAsciiDigit y then more2 else rest1
            | _ => rest1
          else rest1
        | _ => rest1
      some rest2
    else none
  | _ => none

def subIsoTs : Nat → List Char → List Char
  | 0, cs => cs
  | _ + 1, [] => []
  | fuel + 1, c :: tl =>
    match matchIsoTsAt (c :: tl) with
    | some rest => "[ts]".data ++ subIsoTs fuel rest
    | none => c :: subIsoTs fuel tl

/-- `\d{2}:\d{2}:\d{2}(,\d{3})?` at a fixed position. -/
def matchTimeAt (cs : List Char) : Option (List Char) :=
  match cs with
  | h1 :: h2 :: ':' :: m1 :: m2 :: ':' :: s1 :: s2 :: rest =>
    if [h1, h2, m1, m2, s1, s2].all isAsciiDigit then
      match rest with
      | ',' :: a :: b :: c :: more =>
        if isAsciiDigit a ∧ isAsciiDigit b ∧ isAsciiDigit c then some more
        else some rest
      | _ => some rest
    else none
  | _ => none

def subTime : Nat → List Char → List Char
  | 0, cs => cs
  | _ + 1, [] => []
  | fuel + 1, c :: tl =>
    match matchTimeAt (c :: tl) with
    | some rest => "[time]".data ++ subTime fuel rest
    | none => c :: subTime fuel tl

/-- `re.sub(r'\b\d+\b', '[num]', p)`: a maximal digit run whose neighbours
are not word characters; `prev` is the character preceding the scan
position in the original text. -/
def subNum (prev : Option Char) : Nat → List Char → List Char
  | 0, cs => cs
  | _ + 1, [] => []
  | fuel + 1, c :: tl =>
    let boundaryBefore : Bool := match prev with
      | none => true
      | some p => ¬ isWordChar p
    if boundaryBefore ∧ isAsciiDigit c then
      let (run, rest) := takeDigits (c :: tl)
      let boundaryAfter : Bool := match rest with
        | [] => true
        | r :: _ => ¬ isWordChar r
      if boundaryAfter then
        "[num]".data ++ subNum (run.getLast? ) fuel rest
      else c :: subNum (some c) fuel tl
    else c :: subNum (some c) fuel tl

/-- `re.sub(r'https?://[^\s]+', '[url]', p)` -/
def subUrl : Nat → List Char → List Char
  | 0, cs => cs
  | _ + 1, [] => []
  | fuel + 1, c :: tl =>
    let attempt : Option (List Char) := do
      let cs1 ← dropLit "http".data (c :: tl)
      -- `s?` then `://`: greedy `s` first, then the bare alternative
      let cs2 ←
        match dropLit "s://".data cs1 with
        | some r => some r
        | none => dropLit "://".data cs1
      match cs2.takeWhile (fun x => ¬ isPySpace x) with
      | [] => none
      | body => some (cs2.drop body.length)
    match attempt with
    | some rest => "[url]".data ++ subUrl fuel rest
    | none => c :: subUrl fuel tl

/-- The per-line canonicalization pipeline of `_generate_fingerprint`
(steps 1-6 of the source, applied to `line.lower().strip()`). -/
def canonLine (line : String) : String :=
  let p := stripChars (pyLower line).data
  let p := subHexRun 32 "[id32]".data p.length p
  let p := subHexRun 16 "[id16]".data p.length p
  let p := subHexLit p.length p
  let p := subIsoTs p.length p
  let p := subTime p.length p
  let p := subNum none p.length p
  let p := subUrl p.length p
  ⟨stripSet ".:; ".data p⟩

/-! ### MD5 (hashlib.md5, RFC 1321) over 32-bit words as `Nat mod 2^32` -/

def w32 (n : Nat) : Nat := n % 4294967296

def wnot (a : Nat) : Nat := 4294967295 - a

def rotl32 (x n : Nat) : Nat := (x * 2 ^ n + x / 2 ^ (32 - n)) % 4294967296

def md5K : List Nat :=
  [0xd76aa478, 0xe8c7b756, 0x242070db, 0xc1bdceee,
   0xf57c0faf, 0x4787c62a, 0xa8304613, 0xfd469501,
   0x698098d8, 0x8b44f7af, 0xffff5bb1, 0x895cd7be,
   0x6b901122, 0xfd987193, 0xa679438e, 0x49b40821,
   0xf61e2562, 0xc040b340, 0x265e5a51, 0xe9b6c7aa,
   0xd62f105d, 0x02441453, 0xd8a1e681, 0xe7d3fbc8,
   0x21e1cde6, 0xc33707d6, 0xf4d50d87, 0x455a14ed,
   0xa9e3e905, 0xfcefa3f8, 0x676f02d9, 0x8d2a4c8a,
   0xfffa3942, 0x8771f681, 0x6d9d6122, 0xfde5380c,
   0xa4beea44, 0x4bdecfa9, 0xf6bb4b60, 0xbebfbc70,
   0x289b7ec6, 0xeaa127fa, 0xd4ef3085, 0x04881d05,
   0xd9d4d039, 0xe6db99e5, 0x1fa27cf8, 0xc4ac5665,
   0xf4292244, 0x432aff97, 0xab9423a7, 0xfc93a039,
   0x655b59c3, 0x8f0ccc92, 0xffeff47d, 0x85845dd1,
   0x6fa87e4f, 0xfe2ce6e0, 0xa3014314, 0x4e0811a1,
   0xf7537e82, 0xbd3af235, 0x2ad7d2bb, 0xeb86d391]

def md5S : List Nat :=
  [7, 12, 17, 22, 7, 12, 17, 22, 7, 12, 17, 22, 7, 12, 17, 22,
   5, 9, 14, 20, 5, 9, 14, 20, 5, 9, 14, 20, 5, 9, 14, 20,
   4, 11, 16, 23, 4, 11, 16, 23, 4, 11, 16, 23, 4, 11, 16, 23,
   6, 10, 15, 21, 6, 10, 15, 21, 6, 10, 15, 21, 6, 10, 15, 21]

/-- UTF-8 encoding of one character (as byte values). -/
def utf8Char (c : Char) : List Nat :=
  let n := c.toNat
  if n < 0x80 then [n]
  else if n < 0x800 then [0xC0 + n / 64, 0x80 + n % 64]
  else if n < 0x10000 then
    [0xE0 + n / 4096, 0x80 + n / 64 % 64, 0x80 + n % 64]
  else
    [0xF0 + n / 262144, 0x80 + n / 4096 % 64, 0x80 + n / 64 % 64, 0x80 + n % 64]

def utf8Bytes (s : String) : List Nat := s.data.flatMap utf8Char

/-- Little-endian 8-byte encoding of the bit length (mod 2^64). -/
def le64Bytes (n : Nat) : List Nat :=
  (List.range 8).map (fun i => n / 2 ^ (8 * i) % 256)

/-- MD5 padding: `0x80`, zeros to 56 mod 64, 8-byte little-endian length. -/
def md5Pad (msg : List Nat) : List Nat :=
  let padLen := (55 + 64 - msg.length % 64) % 64 + 1
  msg ++ [0x80] ++ List.replicate (padLen - 1) 0 ++ le64Bytes (msg.length * 8)

def chunksGo (size : Nat) : Nat → List Nat → List (List Nat)
  | 0, _ => []
  | _ + 1, [] => []
  | fuel + 1, l => l.take size :: chunksGo size fuel (l.drop size)

def leWord (bytes : List Nat) : Nat :=
  match bytes with
  | [b0, b1, b2, b3] => b0 + b1 * 256 + b2 * 65536 + b3 * 16777216
  | _ => 0

def md5F (i b c d : Nat) : Nat :=
  if i < 16 then (b.land c).lor ((wnot b).land d)
  else if i < 32 then (d.land b).lor ((wnot d).land c)
  else if i < 48 then (b.xor c).xor d
  else c.xor (b.lor (wnot d))

def md5G (i : Nat) : Nat :=
  if i < 16 then i
  else if i < 32 then (5 * i + 1) % 16
  else if i < 48 then (3 * i + 5) % 16
  else 7 * i % 16

/-- One 64-byte block of the MD5 compression function. -/
def md5Block (state : Nat × Nat × Nat × Nat) (chunk : List Nat) :
    Nat × Nat × Nat × Nat :=
  let m := (chunksGo 4 16 chunk).map leWord
  let (a0, b0, c0, d0) := state
  let (a, b, c, d) := (List.range 64).foldl
    (fun (st : Nat × Nat × Nat × Nat) i =>
      let (a, b, c, d) := st
      let f := w32 (md5F i b c d + a + md5K.getD i 0 + m.getD (md5G i) 0)
      (d, w32 (b + rotl32 f (md5S.getD i 0)), b, c))
    (a0, b0, c0, d0)
  (w32 (a0 + a), w32 (b0 + b), w32 (c0 + c), w32 (d0 + d))

def hexDigitChar (n : Nat) : Char :=
  if n < 10 then Char.ofNat ('0'.toNat + n)
  else Char.ofNat ('a'.toNat + (n - 10))

def byteHex (b : Nat) : List Char := [hexDigitChar (b / 16), hexDigitChar (b % 16)]

/-- Little-endian byte rendering of a 32-bit word as hex. -/
def wordHexLE (w : Nat) : List Char :=
  byteHex (w % 256) ++ byteHex (w / 256 % 256) ++ byteHex (w / 65536 % 256)
    ++ byteHex (w / 16777216 % 256)

/-- `hashlib.md5(text.encode()).hexdigest()` -/
def md5Hex (s : String) : String :=
  let msg := md5Pad (utf8Bytes s)
  let blocks := chunksGo 64 (msg.length / 64) msg
  let (a, b, c, d) := blocks.foldl md5Block
    (0x67452301, 0xefcdab89, 0x98badcfe, 0x10325476)
  ⟨wordHexLE a ++ wordHexLE b ++ wordHexLE c ++ wordHexLE d⟩

/-- The canonical patterns of a content string, in line order and with
duplicates (the raw material of `unique_patterns`). -/
def canonPatterns (content : String) : List String :=
  ((pySplitLines content).map canonLine).filter (fun p => p ≠ "")

/-- The distinct canonical line patterns of a content string, sorted as
`sorted(list(unique_patterns))` (duplicates removed; sort order is the
code-point lexicographic order Python uses). -/
def uniquePatternsSorted (content : String) : List String :=
  (canonPatterns content).dedup.mergeSort (fun a b => a ≤ b)

/-- `BatchTraceBundler._generate_fingerprint` (lines 483-526). -/
def generate_fingerprint (content : String) : String :=
  if content = "" then "empty"
  else
    let pats := uniquePatternsSorted content
    if pats = [] then "empty"
    else md5Hex (joinLines pats)

/-! ### SHA-256 (hashlib.sha256, FIPS 180-4) for the bundle ids -/

def rotr32 (x n : Nat) : Nat := (x / 2 ^ n + x * 2 ^ (32 - n)) % 4294967296

def sha256K : List Nat :=
  [1116352408, 1899447441, 3049323471, 3921009573,
   961987163, 1508970993, 2453635748, 2870763221,
   3624381080, 310598401, 607225278, 1426881987,
   1925078388, 2162078206, 2614888103, 3248222580,
   3835390401, 4022224774, 264347078, 604807628,
   770255983, 1249150122, 1555081692, 1996064986,
   2554220882, 2821834349, 2952996808, 3210313671,
   3336571891, 3584528711, 113926993, 338241895,
   666307205, 773529912, 1294757372, 1396182291,
   1695183700, 1986661051, 2177026350, 2456956037,
   2730485921, 2820302411, 3259730800, 3345764771,
   3516065817, 3600352804, 4094571909, 275423344,
   430227734, 506948616, 659060556, 883997877,
   958139571, 1322822218, 1537002063, 1747873779,
   1955562222, 2024104815, 2227730452, 2361852424,
   2428436474, 2756734187, 3204031479, 3329325298]

/-- Big-endian 8-byte encoding of the bit length. -/
def be64Bytes (n : Nat) : List Nat :=
  ((List.range 8).map (fun i => n / 2 ^ (8 * i) % 256)).reverse

def sha256Pad (msg : List Nat) : List Nat :=
  let padLen := (55 + 64 - msg.length % 64) % 64 + 1
  msg ++ [0x80] ++ List.replicate (padLen - 1) 0 ++ be64Bytes (msg.length * 8)

def beWord (bytes : List Nat) : Nat :=
  match bytes with
  | [b0, b1, b2, b3] => b0 * 16777216 + b1 * 65536 + b2 * 256 + b3
  | _ => 0

def sha256SmallSigma0 (x : Nat) : Nat := ((rotr32 x 7).xor (rotr32 x 18)).xor (x / 8)

def sha256SmallSigma1 (x : Nat) : Nat := ((rotr32 x 17).xor (rotr32 x 19)).xor (x / 1024)

def sha256BigSigma0 (x : Nat) : Nat := ((rotr32 x 2).xor (rotr32 x 13)).xor (rotr32 x 22)

def sha256BigSigma1 (x : Nat) : Nat := ((rotr32 x 6).xor (rotr32 x 11)).xor (rotr32 x 25)

/-- Message schedule: 16 block words extended to 64. -/
def sha256Schedule (ws : List Nat) : List Nat :=
  (List.range 48).foldl (fun w _ =>
    let n := w.length
    w ++ [w32 (sha256SmallSigma1 (w.getD (n - 2) 0) + w.getD (n - 7) 0
               + sha256SmallSigma0 (w.getD (n - 15) 0) + w.getD (n - 16) 0)]) ws

def sha256Block (state : List Nat) (chunk : List Nat) : List Nat :=
  let w := sha256Schedule ((chunksGo 4 16 chunk).map beWord)
  let rounds := (List.range 64).foldl
    (fun (st : List Nat) i =>
      match st with
      | [a, b, c, d, e, f, g, h] =>
        let ch := ((e.land f).xor ((wnot e).land g))
        let t1 := w32 (h + sha256BigSigma1 e + ch + sha256K.getD i 0 + w.getD i 0)
        let maj := ((a.land b).xor (a.land c)).xor (b.land c)
        let t2 := w32 (sha256BigSigma0 a + maj)
        [w32 (t1 + t2), a, b, c, w32 (d + t1), e, f, g]
      | other => other)
    state
  (state.zip rounds).map (fun p => w32 (p.1 + p.2))

/-- Big-endian hex rendering of a 32-bit word. -/
def wordHexBE (w : Nat) : List Char :=
  byteHex (w / 16777216 % 256) ++ byteHex (w / 65536 % 256)
    ++ byteHex (w / 256 % 256) ++ byteHex (w % 256)

/-- `hashlib.sha256(text.encode()).hexdigest()` -/
def sha256Hex (s : String) : String :=
  let msg := sha256Pad (utf8Bytes s)
  let blocks := chunksGo 64 (msg.length / 64) msg
  let final := blocks.foldl sha256Block
    [1779033703, 3144134277, 1013904242, 2773480762,
     1359893119, 2600822924, 528734635, 1541459225]
  ⟨final.flatMap wordHexBE⟩

/-! ## trace_bundler.py — streaming bundler (C10) -/

/-- `trace_bundler.BundlerConfig` with its defaults. -/
structure BundlerConfig where
  window_seconds : Nat := 60
  min_severity : String := "WARNING"
  max_logs_per_bundle : Nat := 100
  max_content_length : Nat := 10000
deriving DecidableEq, Repr

/-- Python-dict set: replace in place, or append (insertion order). -/
def dictSet {K V : Type} [DecidableEq K] (m : List (K × V)) (k : K) (v : V) :
    List (K × V) :=
  if (m.lookup k).isSome then
    m.map (fun kv => if kv.1 = k then (k, v) else kv)
  else m ++ [(k, v)]

/-- `dict.pop(k, None)` (state part). -/
def dictPop {K V : Type} [DecidableEq K] (m : List (K × V)) (k : K) :
    List (K × V) :=
  m.filter (fun kv => kv.1 ≠ k)

/-- The dict produced by `IncidentBundle.to_dict`. -/
structure SBundleDict where
  id : String
  trace_id : String
  service : String
  operation : Option String
  severity : String
  content : String
  log_count : Nat
  first_ts : Option DT
  last_ts : Option DT
  logs_sample : List IncidentLog
deriving DecidableEq, Repr

/-- `IncidentBundle.to_dict` (trace_bundler.py lines 83-102). -/
def IncidentBundle.to_dict (b : IncidentBundle) (config : BundlerConfig) :
    SBundleDict :=
  let content := b.format_content config.max_content_length
  let id_input := b.trace_id ++ ":" ++ b.service ++ ":" ++
    (match b.first_ts with
     | some t => dtIsoformat t
     | none => "no-ts")
  { id := strTake (sha256Hex id_input) 32
    trace_id := b.trace_id
    service := b.service
    operation := b.operation
    severity := b.severity
    content := content
    log_count := b.logs.length
    first_ts := b.first_ts
    last_ts := b.last_ts
    logs_sample := b.logs.take 10 }

/-- `trace_bundler.StreamingTraceBundler` in-memory state. -/
structure StreamingTraceBundler where
  config : BundlerConfig := {}
  bundles : List (String × IncidentBundle) := []
  bundle_start_times : List (String × DT) := []
deriving DecidableEq, Repr

/-- `StreamingTraceBundler._complete_bundle`: pop the bundle and its start
time; discard it when below the minimum severity. -/
def StreamingTraceBundler.complete_bundle (st : StreamingTraceBundler)
    (trace_id : String) : Option SBundleDict × StreamingTraceBundler :=
  let bundle := st.bundles.lookup trace_id
  let st2 := { st with bundles := dictPop st.bundles trace_id,
                       bundle_start_times := dictPop st.bundle_start_times trace_id }
  match bundle with
  | none => (none, st2)
  | some b =>
    if lookupD SEVERITY_ORDER b.severity 1
        < lookupD SEVERITY_ORDER st.config.min_severity 2 then (none, st2)
    else (some (b.to_dict st.config), st2)

/-- `StreamingTraceBundler.add_log` (trace_bundler.py lines 144-174) with
`datetime.now()` passed explicitly.  A falsy `trace_id` (absent, `None`
or `""`) returns `None` immediately, before any state is touched. -/
def StreamingTraceBundler.add_log (st : StreamingTraceBundler) (now : DT)
    (log : IncidentLog) : Option SBundleDict × StreamingTraceBundler :=
  match log.trace_id with
  | none => (none, st)
  | some tid =>
    if tid = "" then (none, st)
    else
      let (completed, st) :=
        if (st.bundles.lookup tid).isSome then
          let start_time := (st.bundle_start_times.lookup tid).getD now
          if dtToEpochMicro now - dtToEpochMicro start_time
              > st.config.window_seconds * 1000000 then
            st.complete_bundle tid
          else (none, st)
        else (none, st)
      let st :=
        if (st.bundles.lookup tid).isSome then st
        else { st with
                bundles := dictSet st.bundles tid { trace_id := tid, service := "unknown" }
                bundle_start_times := dictSet st.bundle_start_times tid now }
      let st := { st with
        bundles := st.bundles.map (fun kv =>
          if kv.1 = tid then (kv.1, kv.2.add_log log) else kv) }
      (completed, st)

/-! ## Concrete instances used by the claim theorems -/

def sumLens (xs : List String) : Nat := (xs.map String.length).sum

/-- A stored traceback-derived incident row with CRITICAL severity. -/
def c1Stored : DocumentsRow :=
  { id := "doc-1", source := "app/ContainerAppConsoleLogs",
    ts := "2025-11-07T09:00:00+00:00",
    content := "Headline: boom\nException: ValueError: bad\nAppFrame: File \"/app/x.py\", line 1, in f",
    severity := some "CRITICAL" }

/-- A later HTTP-fallback row for the same id with WARNING severity. -/
def c1Incoming : DocumentsRow :=
  { id := "doc-1", source := "app/ContainerAppConsoleLogs",
    ts := "2025-11-07T09:05:00+00:00",
    content := "Headline: HTTP 503 GET /api/x\nSnippet:\n\"GET /api/x HTTP/1.1\" 503",
    severity := some "WARNING" }

def c1StoredW : WorkerDocRow Unit :=
  { id := "doc-1", source := "svc", ts := "2025-11-07T09:00:00+00:00",
    content := "traceback content", severity := some 4, embedding := () }

def c1IncomingW : WorkerDocRow Unit :=
  { id := "doc-1", source := "svc", ts := "2025-11-07T09:05:00+00:00",
    content := "http fallback content", severity := some 2, embedding := () }

/-- The five-record input of the episode-closure property (§8 of the
spec), one record per message line. -/
def c2Records : List ERecord :=
  [{ message := some "INFO: ok" },
   { message := some "Traceback (most recent call last):" },
   { message := some "  File \"/app/x.py\", line 1, in f" },
   { message := some "ValueError: bad" },
   { message := some "INFO: continuing" }]

/-- A payload whose timestamp candidate fails to parse and whose other
fields pass the filters of `normalize_payload`. -/
def c3Payload : NPayload :=
  { messageKey := some (some "boom"), timestamp := some "not-a-date" }

def c5rec503 : IncRecord := { message := some "\"GET /api/x HTTP/1.1\" 503" }

def c5rec200 : IncRecord := { message := some "\"GET /health HTTP/1.1\" 200" }

def c5incident503 : Incident :=
  { source := "ContainerAppConsoleLogs", severity := "CRITICAL",
    content := "Headline: HTTP 503 GET /api/x\nSnippet:\n\"GET /api/x HTTP/1.1\" 503",
    ts := none }

/-- Three records for `(service="checkout", replica="r1")` at t=0s (with
trace id), t=10s and t=50s (without). -/
def c7rows : List BRow :=
  [{ trace_id := some "abc123", service := some "checkout",
     container_group := some "r1",
     timestamp := some { year := 2025, month := 1, day := 1, hour := 10 } },
   { service := some "checkout", container_group := some "r1",
     timestamp := some { year := 2025, month := 1, day := 1, hour := 10, second := 10 } },
   { service := some "checkout", container_group := some "r1",
     timestamp := some { year := 2025, month := 1, day := 1, hour := 10, second := 50 } }]

/-- Two contents whose canonical line sets agree (order and duplication
differ). -/
def c8content1 : String := "b\na\na"

def c8content2 : String := "a\nb"

/-- A bundle whose formatted content overruns a budget of 10 characters:
the first line fills the budget exactly and the truncation marker for the
second log is appended past it. -/
def c9Bundle : IncidentBundle :=
  { trace_id := "trace-1", service := "svc",
    logs := [{ message := some "abc" }, { message := some "x" }] }

def c10State : StreamingTraceBundler := {}

def c10Now : DT := { year := 2025, month := 1, day := 1 }

/-- A log record without any trace identifier. -/
def c10Log : IncidentLog := { message := some "no trace id here", severity := some "ERROR" }

/-! ## Theorems -/

/-- C1 counterexample: the `ON CONFLICT (id) DO UPDATE` merge of both
upsert statements replaces a stored CRITICAL severity with an incoming
non-null WARNING severity (a downgrade), and replaces traceback-sourced
content with the incoming HTTP-fallback content. -/
theorem C1_counterexample :
    (upsertMergeExtractTool c1Stored c1Incoming).severity = some "WARNING"
    ∧ lookupD LEVEL_ORDER "WARNING" 10 < lookupD LEVEL_ORDER "CRITICAL" 10
    ∧ (upsertMergeExtractTool c1Stored c1Incoming).content = c1Incoming.content
    ∧ (upsertMergeExtractTool c1Stored c1Incoming).content ≠ c1Stored.content
    ∧ (upsert_documents_merge c1StoredW c1IncomingW).severity = some 2
    ∧ c1StoredW.severity = some 4 := by
  refine ⟨rfl, by decide, rfl, by decide, rfl, rfl⟩

/-- C1 (amended): the merge keeps the stored severity exactly when the
incoming severity is NULL (or coincides with it); a non-null incoming
severity always replaces the stored one, even when lower, and `content`,
`ts` and `source` are always overwritten by the incoming row. -/
theorem C1_upsert_merge_semantics :
    (∀ stored incoming : DocumentsRow,
      (upsertMergeExtractTool stored incoming).content = incoming.content
      ∧ (upsertMergeExtractTool stored incoming).ts = incoming.ts
      ∧ (upsertMergeExtractTool stored incoming).source = incoming.source
      ∧ (upsertMergeExtractTool stored incoming).id = stored.id
      ∧ ((upsertMergeExtractTool stored incoming).severity = stored.severity ↔
          incoming.severity = none ∨ incoming.severity = stored.severity))
    ∧ (∀ (E : Type) (stored incoming : WorkerDocRow E),
      (upsert_documents_merge stored incoming).content = incoming.content
      ∧ (upsert_documents_merge stored incoming).embedding = incoming.embedding
      ∧ ((upsert_documents_merge stored incoming).severity = stored.severity ↔
          incoming.severity = none ∨ incoming.severity = stored.severity)) := by
  constructor
  · intro stored incoming
    refine ⟨rfl, rfl, rfl, rfl, ?_⟩
    cases h : incoming.severity with
    | none => simp [upsertMergeExtractTool, h]
    | some s =>
      simp only [upsertMergeExtractTool, h]
      constructor
      · intro hs
        exact Or.inr hs
      · rintro (habs | hs)
        · exact absurd habs (by simp)
        · exact hs
  · intro E stored incoming
    refine ⟨rfl, rfl, ?_⟩
    cases h : incoming.severity with
    | none => simp [upsert_documents_merge, h]
    | some s =>
      simp only [upsert_documents_merge, h]
      constructor
      · intro hs
        exact Or.inr hs
      · rintro (habs | hs)
        · exact absurd habs (by simp)
        · exact hs

/-- C6: both severity merges of the trace bundler — the fingerprint
collision merge of `bundle_dataframe` and `IncidentBundle.add_log` —
produce exactly the maximum of the two input severity ranks, so folding
records or bundles together never decreases severity. -/
theorem C6_severity_merge_monotone :
    (∀ existing bundle : BundleDict,
      lookupD SEVERITY_ORDER (mergeFingerprintCollision existing bundle).severity 1
        = max (lookupD SEVERITY_ORDER existing.severity 1)
              (lookupD SEVERITY_ORDER bundle.severity 1))
    ∧ (∀ (b : IncidentBundle) (log : IncidentLog),
      lookupD SEVERITY_ORDER (b.add_log log).severity 1
        = max (lookupD SEVERITY_ORDER b.severity 1)
              (lookupD SEVERITY_ORDER (log.severity.getD "INFO") 1)) := by
  constructor
  · intro existing bundle
    by_cases h : lookupD SEVERITY_ORDER bundle.severity 1
        > lookupD SEVERITY_ORDER existing.severity 1
    · simp [mergeFingerprintCollision, h, Nat.max_eq_right (Nat.le_of_lt h)]
    · simp [mergeFingerprintCollision, h, Nat.max_eq_left (Nat.le_of_not_lt h)]
  · intro b log
    by_cases h : lookupD SEVERITY_ORDER (log.severity.getD "INFO") 1
        > lookupD SEVERITY_ORDER b.severity 1
    · simp [IncidentBundle.add_log, h, Nat.max_eq_right (Nat.le_of_lt h)]
    · simp [IncidentBundle.add_log, h, Nat.max_eq_left (Nat.le_of_not_lt h)]

/-- C10: `StreamingTraceBundler.add_log` on a record whose `trace_id` is
absent or empty returns `None` and leaves the bundler state untouched. -/
theorem C10_add_log_falsy_trace_id (st : StreamingTraceBundler) (now : DT)
    (log : IncidentLog) (h : log.trace_id = none ∨ log.trace_id = some "") :
    st.add_log now log = (none, st) := by
  rcases h with h | h <;> simp [StreamingTraceBundler.add_log, h]

/-- C10 witness: a concrete log without a trace id is dropped and the
empty bundler state is returned unchanged. -/
theorem C10_add_log_falsy_witness :
    c10State.add_log c10Now c10Log = (none, c10State) :=
  C10_add_log_falsy_trace_id c10State c10Now c10Log (Or.inl rfl)

/-- C2: on the five-line input the stitcher flushes exactly one episode,
and that episode's `lines` list contains the trailing "INFO: continuing"
record (`count = 4`), because the loop appends the record before testing
the closure condition; the downstream exception summary of those lines
then reports `INFO` instead of `ValueError`.  The wall-clock parameter is
irrelevant to the stitching. -/
theorem C2_episode_includes_closing_line (now : String) :
    (process_blob_episodes now c2Records).map
        (fun ep => (ep.lines, ep.count, ep.headline, ep.seen_exc_tail))
      = [(["Traceback (most recent call last):",
           "  File \"/app/x.py\", line 1, in f",
           "ValueError: bad",
           "INFO: continuing"], 4, "INFO: ok", true)]
    ∧ extract_exception_summary
        (joinLines ["Traceback (most recent call last):",
                    "  File \"/app/x.py\", line 1, in f",
                    "ValueError: bad",
                    "INFO: continuing"])
      = (some "INFO", some "continuing") := by
  exact ⟨rfl, rfl⟩

/-- C3: any payload that survives the metric filter and the category
filter and yields truthy content makes `normalize_payload` raise
`NameError` at the `utc_iso` call (the name is unbound in
modules/normalize.py) — in particular it never substitutes the current
UTC time for a missing or unparsable timestamp. -/
theorem C3_normalize_payload_name_error (p : NPayload)
    (hm : is_metric_payload p = false) (ha : is_allowed_log p = true)
    (hc : optStrTruthy (normalizeContent p) = true) :
    normalize_payload p = .error (.nameError "utc_iso") := by
  cases hcc : normalizeContent p with
  | none => rw [hcc] at hc; simp [optStrTruthy] at hc
  | some c =>
    rw [hcc] at hc
    simp only [optStrTruthy, ne_eq, decide_eq_true_eq] at hc
    simp [normalize_payload, hm, ha, hcc, hc]

/-- C3 witness: the concrete payload with an unparsable timestamp ends in
`NameError` rather than a normal return. -/
theorem C3_name_error_witness :
    normalize_payload c3Payload = .error (.nameError "utc_iso") :=
  C3_normalize_payload_name_error c3Payload rfl rfl rfl

/-! ### C5 helper lemmas -/

/-- Every candidate the access-log scanner keeps has status ≥ 400. -/
theorem scanHttp1_code_ge (fuel : Nat) :
    ∀ (cs : List Char) (e : HttpErr), e ∈ scanHttp1Fuel fuel cs → 400 ≤ e.code := by
  induction fuel with
  | zero => intro cs e he; simp [scanHttp1Fuel] at he
  | succ n ih =>
    intro cs e he
    cases cs with
    | nil => simp [scanHttp1Fuel] at he
    | cons c tl =>
      rw [scanHttp1Fuel] at he
      cases hm : matchHttp1At (c :: tl) with
      | none => rw [hm] at he; exact ih tl e he
      | some v =>
        obtain ⟨method, path, code, rest⟩ := v
        rw [hm] at he
        rw [List.mem_append] at he
        rcases he with he | he
        · by_cases hcond : 400 ≤ code ∧
              ¬ ((code = 200 ∨ code = 204) ∧ path ∈ IGNORED_HTTP_PATHS)
          · rw [if_pos hcond] at he
            simp at he
            rw [he]
            exact hcond.1
          · rw [if_neg hcond] at he
            simp at he
        · exact ih rest e he

/-- Every candidate the client-log scanner keeps has status ≥ 400. -/
theorem scanHttp2_code_ge (fuel : Nat) :
    ∀ (cs : List Char) (e : HttpErr), e ∈ scanHttp2Fuel fuel cs → 400 ≤ e.code := by
  induction fuel with
  | zero => intro cs e he; simp [scanHttp2Fuel] at he
  | succ n ih =>
    intro cs e he
    cases cs with
    | nil => simp [scanHttp2Fuel] at he
    | cons c tl =>
      rw [scanHttp2Fuel] at he
      cases hm : matchHttp2At (c :: tl) with
      | none => rw [hm] at he; exact ih tl e he
      | some v =>
        obtain ⟨method, url, code, rest⟩ := v
        rw [hm] at he
        rw [List.mem_append] at he
        rcases he with he | he
        · by_cases hcond : 400 ≤ code
          · rw [if_pos hcond] at he
            simp at he
            rw [he]
            exact hcond
          · rw [if_neg hcond] at he
            simp at he
        · exact ih rest e he

/-- Every candidate the JSON-status scanner keeps has status ≥ 400. -/
theorem scanJson_code_ge (whole : List Char) (fuel : Nat) :
    ∀ (pos : Nat) (cs : List Char) (e : HttpErr),
      e ∈ scanJsonStatusFuel whole fuel pos cs → 400 ≤ e.code := by
  induction fuel with
  | zero => intro pos cs e he; simp [scanJsonStatusFuel] at he
  | succ n ih =>
    intro pos cs e he
    cases cs with
    | nil => simp [scanJsonStatusFuel] at he
    | cons c tl =>
      rw [scanJsonStatusFuel] at he
      cases hm : matchJsonStatusAt (c :: tl) with
      | none => rw [hm] at he; exact ih (pos + 1) tl e he
      | some v =>
        obtain ⟨code, consumed⟩ := v
        rw [hm] at he
        rw [List.mem_append] at he
        rcases he with he | he
        · by_cases hcond : 400 ≤ code
          · rw [if_pos hcond] at he
            simp at he
            rw [he]
            exact hcond
          · rw [if_neg hcond] at he
            simp at he
        · exact ih (pos + consumed) ((c :: tl).drop consumed) e he

/-- The propositional form of the pick-worst sort key comparison. -/
theorem keyLt_iff (a b : Int × Int) :
    keyLt a b = true ↔ a.1 < b.1 ∨ (a.1 = b.1 ∧ a.2 < b.2) := by
  simp [keyLt]

theorem keyLt_irrefl (a : Int × Int) : keyLt a a = false := by
  simp [keyLt]

/-- The fold of `_pick_worst_http` returns a member with a minimal key. -/
theorem pickWorstFold_spec (rest : List HttpErr) :
    ∀ best : HttpErr,
      (rest.foldl (fun b x => if keyLt (errKey x) (errKey b) then x else b) best)
          ∈ best :: rest
      ∧ ∀ e ∈ best :: rest,
          keyLt (errKey e)
            (errKey (rest.foldl
              (fun b x => if keyLt (errKey x) (errKey b) then x else b) best)) = false := by
  induction rest with
  | nil =>
    intro best
    refine ⟨List.mem_singleton_self best, ?_⟩
    intro e he
    rw [List.mem_singleton] at he
    rw [he]
    exact keyLt_irrefl _
  | cons x rest ih =>
    intro best
    simp only [List.foldl_cons]
    set best2 := if keyLt (errKey x) (errKey best) then x else best with hbest2
    obtain ⟨ihMem, ihMin⟩ := ih best2
    constructor
    · rcases List.mem_cons.mp ihMem with h | h
      · rw [h]
        by_cases hc : keyLt (errKey x) (errKey best) = true
        · rw [hbest2, if_pos hc]
          exact List.mem_cons_of_mem _ (List.mem_cons_self _ _)
        · rw [hbest2, if_neg hc]
          exact List.mem_cons_self _ _
      · exact List.mem_cons_of_mem _ (List.mem_cons_of_mem _ h)
    · intro e he
      set r := rest.foldl (fun b x => if keyLt (errKey x) (errKey b) then x else b) best2
        with hr
      have hxr : keyLt (errKey best2) (errKey r) = false :=
        ihMin best2 (List.mem_cons_self _ _)
      rcases List.mem_cons.mp he with h | h
      · -- e = best
        rw [h]
        by_cases hc : keyLt (errKey x) (errKey best) = true
        · -- best2 = x, and x's key is below best's key
          have hb2 : best2 = x := by rw [hbest2, if_pos hc]
          by_contra habs
          have habs' : keyLt (errKey best) (errKey r) = true := by
            cases hv : keyLt (errKey best) (errKey r) with
            | false => exact absurd hv habs
            | true => rfl
          -- transitivity: key x < key best < key r contradicts minimality of r
          have h1 := (keyLt_iff _ _).mp hc
          have h2 := (keyLt_iff _ _).mp habs'
          have : keyLt (errKey x) (errKey r) = true := by
            rw [keyLt_iff]
            omega
          rw [hb2] at hxr
          rw [this] at hxr
          exact Bool.noConfusion hxr
        · -- best2 = best
          have hb2 : best2 = best := by rw [hbest2, if_neg hc]
          rw [← hb2]
          exact hxr
      · rcases List.mem_cons.mp h with h2 | h2
        · -- e = x
          rw [h2]
          by_cases hc : keyLt (errKey x) (errKey best) = true
          · have hb2 : best2 = x := by rw [hbest2, if_pos hc]
            rw [← hb2]
            exact hxr
          · -- ¬(key x < key best): key best ≤ key x, and ¬(key best < key r)
            have hb2 : best2 = best := by rw [hbest2, if_neg hc]
            by_contra habs
            have habs' : keyLt (errKey x) (errKey r) = true := by
              cases hv : keyLt (errKey x) (errKey r) with
              | false => exact absurd hv habs
              | true => rfl
            have hc' : keyLt (errKey x) (errKey best) = false := by
              cases hv : keyLt (errKey x) (errKey best) with
              | false => rfl
              | true => exact absurd hv hc
            have h1 : ¬ ((errKey x).1 < (errKey best).1 ∨
                ((errKey x).1 = (errKey best).1 ∧ (errKey x).2 < (errKey best).2)) := by
              intro hcontra
              rw [← keyLt_iff] at hcontra
              rw [hcontra] at hc'
              exact Bool.noConfusion hc'
            have h2' := (keyLt_iff _ _).mp habs'
            rw [hb2] at hxr
            have h3 : ¬ ((errKey best).1 < (errKey r).1 ∨
                ((errKey best).1 = (errKey r).1 ∧ (errKey best).2 < (errKey r).2)) := by
              intro hcontra
              rw [← keyLt_iff] at hcontra
              rw [hcontra] at hxr
              exact Bool.noConfusion hxr
            omega
        · exact ihMin e (List.mem_cons_of_mem _ h2)

/-- Lines without the traceback marker make `splitAtTbGo` fail. -/
theorem splitAtTbGo_no_marker (lines : List String)
    (h : ∀ ln ∈ lines, tbStartSearch ln = false) :
    ∀ before, splitAtTbGo before lines = none := by
  induction lines with
  | nil => intro before; rfl
  | cons ln rest ih =>
    intro before
    rw [splitAtTbGo]
    rw [h ln (List.mem_cons_self _ _)]
    exact ih (fun l hl => h l (List.mem_cons_of_mem _ hl)) (ln :: before)

/-- C5: HTTP-fallback scanning keeps only status ≥ 400 candidates and the
pick is key-minimal (5xx before 4xx, then highest code); the traceback
path yields nothing when no line carries the marker (so only then does
the fallback run); and the two concrete cases behave as specified:
the lone 503 access-log line produces one CRITICAL incident headlined
`HTTP 503 GET /api/x`, and the 200 health-check line produces nothing. -/
theorem C5_http_fallback_behaviour :
    (∀ (s : String) (e : HttpErr), e ∈ scan_http_errors_in_text s → 400 ≤ e.code)
    ∧ (∀ (errs : List HttpErr) (w : HttpErr), pick_worst_http errs = some w →
        w ∈ errs ∧ ∀ e ∈ errs, keyLt (errKey e) (errKey w) = false)
    ∧ (∀ lines : List String, (∀ ln ∈ lines, tbStartSearch ln = false) →
        compose_content lines = none)
    ∧ (summarize_records [c5rec503] "WARNING").1 = [c5incident503]
    ∧ (summarize_records [c5rec200] "WARNING").1 = [] := by
  refine ⟨?_, ?_, ?_, rfl, rfl⟩
  · intro s e he
    rw [scan_http_errors_in_text, List.mem_append, List.mem_append] at he
    rcases he with (he | he) | he
    · exact scanHttp1_code_ge _ _ e he
    · exact scanHttp2_code_ge _ _ e he
    · exact scanJson_code_ge _ _ _ _ e he
  · intro errs w hw
    cases errs with
    | nil => exact absurd hw (by simp [pick_worst_http])
    | cons x rest =>
      rw [pick_worst_http] at hw
      have hspec := pickWorstFold_spec rest x
      have hw' : rest.foldl (fun b y => if keyLt (errKey y) (errKey b) then y else b) x
          = w := by
        injection hw
      rw [hw'] at hspec
      exact hspec
  · intro lines h
    rw [compose_content, splitAtTb, splitAtTbGo_no_marker lines h []]

/-! ### C4 helper lemmas -/

theorem lookup_some_key_mem {α β : Type} [DecidableEq α] :
    ∀ (l : List (α × β)) (k : α) (v : β),
      l.lookup k = some v → k ∈ l.map Prod.fst := by
  intro l
  induction l with
  | nil => intro k v h; simp [List.lookup] at h
  | cons hd tl ih =>
    intro k v h
    rw [List.lookup] at h
    cases hbeq : (k == hd.1) with
    | true =>
      have hk : k = hd.1 := by simpa using hbeq
      simp [hk]
    | false =>
      rw [hbeq] at h
      simp only [List.map_cons, List.mem_cons]
      exact Or.inr (ih k v h)

theorem lookup_some_val_mem {α β : Type} [DecidableEq α] :
    ∀ (l : List (α × β)) (k : α) (v : β),
      l.lookup k = some v → v ∈ l.map Prod.snd := by
  intro l
  induction l with
  | nil => intro k v h; simp [List.lookup] at h
  | cons hd tl ih =>
    intro k v h
    rw [List.lookup] at h
    cases hbeq : (k == hd.1) with
    | true =>
      rw [hbeq] at h
      have hv : hd.2 = v := by simpa using h
      simp [← hv]
    | false =>
      rw [hbeq] at h
      simp only [List.map_cons, List.mem_cons]
      exact Or.inr (ih k v h)

/-- Severity names `coerce_severity` can produce. -/
def FIVE_LEVELS : List String := ["DEBUG", "INFO", "WARNING", "ERROR", "CRITICAL"]

/-- Severity names `_coerce_level` can produce (it returns `FATAL`
unmapped when the input is exactly `FATAL`). -/
def COERCE_LEVEL_NAMES : List String :=
  ["DEBUG", "INFO", "WARNING", "ERROR", "CRITICAL", "FATAL"]

/-- Severity names `_record_level` can produce. -/
def RECORD_LEVEL_NAMES : List String :=
  ["DEBUG", "VERBOSE", "INFO", "INFORMATION", "WARNING", "WARN", "ERROR",
   "CRITICAL", "FATAL"]

theorem levelFromNum_mem (n : Int) : (levelFromNum n).1 ∈ FIVE_LEVELS := by
  rw [levelFromNum]
  split_ifs <;> simp [FIVE_LEVELS]

/-- C4 counterexample: the extraction tool's `coerce_severity` maps the
unmatched string "xyzzy" (not numeric, not a level name, no keyword
substring) to `DEBUG`, not to `INFO` as claimed. -/
theorem C4_counterexample_debug_default :
    coerce_severity (.vstr "xyzzy") = "DEBUG" ∧ ("DEBUG" : String) ≠ "INFO" := by
  exact ⟨rfl, by decide⟩

/-- C4 (amended): all three classifiers are total functions into their
(finite) severity vocabularies; unmatched input defaults to INFO in
`normalize._coerce_level` and `incidents._record_level`, but the
extraction tool's `coerce_severity` defaults to DEBUG for unmatched
non-None values (INFO only for `None`). -/
theorem C4_classifier_totality_and_defaults :
    (∀ v : PyVal, (coerce_level v).1 ∈ COERCE_LEVEL_NAMES)
    ∧ (∀ v : PyVal, coerce_severity v ∈ FIVE_LEVELS)
    ∧ (∀ rec : IncRecord, record_level rec ∈ RECORD_LEVEL_NAMES)
    ∧ (coerce_level .vnone = ("INFO", 20) ∧ coerce_severity .vnone = "INFO")
    ∧ (∀ s : String, pyIntOfString s = none →
        LEVEL_NUM.lookup (pyUpper (pyStrip s)) = none →
        strStartsWith (pyUpper (pyStrip s)) "WARN" = false →
        strStartsWith (pyUpper (pyStrip s)) "ERR" = false →
        strStartsWith (pyUpper (pyStrip s)) "CRIT" = false →
        pyUpper (pyStrip s) ≠ "FATAL" →
        strStartsWith (pyUpper (pyStrip s)) "DBG" = false →
        coerce_level (.vstr s) = ("INFO", 20))
    ∧ (∀ s : String, LEVEL_ORDER.lookup (pyUpper s) = none →
        strContains (pyUpper s) "CRITICAL" = false →
        strContains (pyUpper s) "ERROR" = false →
        strContains (pyUpper s) "WARN" = false →
        strContains (pyUpper s) "INFO" = false →
        coerce_severity (.vstr s) = "DEBUG")
    ∧ (∀ rec : IncRecord,
        orChain [(rec.level).getD .vnone, (rec.capLevel).getD .vnone,
          (rec.severity).getD .vnone, (rec.severityLevel).getD .vnone] = .vnone →
        findBounded3Digits none (record_text rec).data = none →
        strContains (pyUpper (record_text rec)) "CRITICAL" = false →
        strContains (pyUpper (record_text rec)) "ERROR" = false →
        strContains (pyUpper (record_text rec)) "WARNING" = false →
        record_level rec = "INFO") := by
  refine ⟨?_, ?_, ?_, ⟨rfl, rfl⟩, ?_, ?_, ?_⟩
  · -- range of _coerce_level
    intro v
    cases v with
    | vnone => simp [coerce_level, COERCE_LEVEL_NAMES]
    | vint n =>
      have := levelFromNum_mem n
      simp only [FIVE_LEVELS, List.mem_cons, List.not_mem_nil, or_false] at this
      simp only [coerce_level, COERCE_LEVEL_NAMES, List.mem_cons, List.not_mem_nil,
        or_false]
      tauto
    | vstr s =>
      cases hint : pyIntOfString s with
      | some n =>
        have := levelFromNum_mem n
        simp only [FIVE_LEVELS, List.mem_cons, List.not_mem_nil, or_false] at this
        simp only [coerce_level, hint, COERCE_LEVEL_NAMES, List.mem_cons,
          List.not_mem_nil, or_false]
        tauto
      | none =>
        cases hl : LEVEL_NUM.lookup (pyUpper (pyStrip s)) with
        | some rank =>
          have hkey := lookup_some_key_mem _ _ _ hl
          simp only [LEVEL_NUM, List.map_cons, List.map_nil, List.mem_cons,
            List.not_mem_nil, or_false] at hkey
          simp only [coerce_level, hint, hl, COERCE_LEVEL_NAMES, List.mem_cons,
            List.not_mem_nil, or_false]
          rcases hkey with h | h | h | h | h | h | h | h <;> rw [h] <;> simp
        | none =>
          simp only [coerce_level, hint, hl]
          split_ifs <;> simp [COERCE_LEVEL_NAMES]
  · -- range of coerce_severity
    intro v
    cases v with
    | vnone => simp [coerce_severity, FIVE_LEVELS]
    | vint n =>
      simp only [coerce_severity]
      exact levelFromNum_mem n
    | vstr s =>
      cases hl : LEVEL_ORDER.lookup (pyUpper s) with
      | some rank =>
        have hkey := lookup_some_key_mem _ _ _ hl
        simp only [LEVEL_ORDER, List.map_cons, List.map_nil, List.mem_cons,
          List.not_mem_nil, or_false] at hkey
        simp only [coerce_severity, hl, Option.isSome_some, if_true,
          FIVE_LEVELS, List.mem_cons, List.not_mem_nil, or_false]
        tauto
      | none =>
        simp only [coerce_severity, hl, Option.isSome_none, Bool.false_eq_true,
          if_false]
        split_ifs <;> simp [FIVE_LEVELS]
  · -- range of _record_level
    intro rec
    cases hval : orChain [(rec.level).getD .vnone, (rec.capLevel).getD .vnone,
        (rec.severity).getD .vnone, (rec.severityLevel).getD .vnone] with
    | vnone =>
      cases hf : findBounded3Digits none (record_text rec).data with
      | some code =>
        simp only [record_level, hval, hf]
        split_ifs <;> simp [RECORD_LEVEL_NAMES]
      | none =>
        simp only [record_level, hval, hf]
        split_ifs <;> simp [RECORD_LEVEL_NAMES]
    | vint n =>
      cases hn : NUM_LEVEL_MAP.lookup n with
      | some name =>
        have hval' := lookup_some_val_mem _ _ _ hn
        simp only [NUM_LEVEL_MAP, List.map_cons, List.map_nil, List.mem_cons,
          List.not_mem_nil, or_false] at hval'
        simp only [record_level, hval, hn, Option.getD_some, RECORD_LEVEL_NAMES,
          List.mem_cons, List.not_mem_nil, or_false]
        tauto
      | none =>
        simp only [record_level, hval, hn, Option.getD_none]
        simp [RECORD_LEVEL_NAMES]
    | vstr s =>
      cases hl : LEVEL_RANK.lookup (pyUpper (pyStrip s)) with
      | some rank =>
        have hkey := lookup_some_key_mem _ _ _ hl
        simp only [LEVEL_RANK, List.map_cons, List.map_nil, List.mem_cons,
          List.not_mem_nil, or_false] at hkey
        simp only [record_level, hval, hl, Option.isSome_some, if_true,
          RECORD_LEVEL_NAMES, List.mem_cons, List.not_mem_nil, or_false]
        tauto
      | none =>
        cases hf : findBounded3Digits none (record_text rec).data with
        | some code =>
          simp only [record_level, hval, hl, Option.isSome_none,
            Bool.false_eq_true, if_false, hf]
          split_ifs <;> simp [RECORD_LEVEL_NAMES]
        | none =>
          simp only [record_level, hval, hl, Option.isSome_none,
            Bool.false_eq_true, if_false, hf]
          split_ifs <;> simp [RECORD_LEVEL_NAMES]
  · -- INFO default of _coerce_level
    intro s hint hl hw he hc hf hd
    simp [coerce_level, hint, hl, hw, he, hc, hf, hd]
  · -- DEBUG default of coerce_severity
    intro s hl hc he hw hi
    simp [coerce_severity, hl, hc, he, hw, hi]
  · -- INFO default of _record_level
    intro rec hval hf hc he hw
    simp [record_level, hval, hf, hc, he, hw]

/-- C4 witness: concrete unmatched inputs hit each default. -/
theorem C4_defaults_witness :
    coerce_level (.vstr "mystery") = ("INFO", 20)
    ∧ coerce_severity (.vstr "mystery") = "DEBUG"
    ∧ record_level { message := some "hello world" } = "INFO" := by
  refine ⟨?_, ?_, ?_⟩
  · exact C4_classifier_totality_and_defaults.2.2.2.2.1 "mystery"
      rfl rfl rfl rfl rfl (by decide) rfl
  · exact C4_classifier_totality_and_defaults.2.2.2.2.2.1 "mystery"
      rfl rfl rfl rfl rfl
  · exact C4_classifier_totality_and_defaults.2.2.2.2.2.2 _
      rfl rfl rfl rfl rfl

/-! ### C7 helper lemmas -/

theorem lookupAssoc_filter_ne {K V : Type} [DecidableEq K] (k k2 : K) (h : k2 ≠ k) :
    ∀ m : List (K × V),
      lookupAssoc (m.filter (fun kv => kv.1 ≠ k)) k2 = lookupAssoc m k2 := by
  intro m
  induction m with
  | nil => rfl
  | cons hd tl ih =>
    obtain ⟨hk, hv⟩ := hd
    by_cases hh : hk = k
    · rw [List.filter_cons]
      rw [if_neg (by simp [hh])]
      rw [ih]
      rw [lookupAssoc]
      rw [if_neg (by rw [hh]; exact h)]
    · rw [List.filter_cons]
      rw [if_pos (by simp [hh])]
      rw [lookupAssoc, lookupAssoc]
      by_cases hbeq : k2 = hk
      · rw [if_pos hbeq, if_pos hbeq]
      · rw [if_neg hbeq, if_neg hbeq]
        exact ih

theorem lookupAssoc_updAssoc {K V : Type} [DecidableEq K]
    (m : List (K × V)) (k k2 : K) (v : V) :
    lookupAssoc (updAssoc m k v) k2 = if k2 = k then some v else lookupAssoc m k2 := by
  rw [updAssoc, lookupAssoc]
  by_cases hk : k2 = k
  · rw [if_pos hk, if_pos hk]
  · rw [if_neg hk, if_neg hk]
    exact lookupAssoc_filter_ne k k2 hk m

theorem lastValidFor_append (key : String × String) (pre : List BRow) (r : BRow) :
    lastValidFor key (pre ++ [r]) =
      match validTid r with
      | some tid =>
        if traceKey r = key then some (tid, r.timestamp) else lastValidFor key pre
      | none => lastValidFor key pre := by
  rw [lastValidFor, List.foldl_append, List.foldl_cons, List.foldl_nil]
  rfl

/-- The session-memory fold of the TraceID-propagation loop computes, at
every record, exactly the claim-side "most recent explicitly-identified
record with the same key" lookup. -/
theorem inferGo_eq_specAssignGo :
    ∀ (rows pre : List BRow) (m : List ((String × String) × (String × Option DT))),
      (∀ k, lookupAssoc m k = lastValidFor k pre) →
      inferGo m rows = specAssignGo pre rows := by
  intro rows
  induction rows with
  | nil => intro pre m _; rfl
  | cons r rest ih =>
    intro pre m h
    have hrec : ∀ tailMap,
        (∀ k, lookupAssoc tailMap k = lastValidFor k (pre ++ [r])) →
        inferGo tailMap rest = specAssignGo (pre ++ [r]) rest :=
      fun tailMap hm => ih (pre ++ [r]) tailMap hm
    cases hv : validTid r with
    | some tid =>
      simp only [inferGo, specAssignGo, hv]
      congr 1
      apply hrec
      intro k
      rw [lookupAssoc_updAssoc]
      rw [lastValidFor_append]
      rw [hv]
      simp only
      by_cases hk : k = traceKey r
      · rw [if_pos hk, if_pos hk.symm]
      · rw [if_neg hk, if_neg (fun hcontra => hk (Eq.symm hcontra))]
        exact h k
    | none =>
      have htail : inferGo m rest = specAssignGo (pre ++ [r]) rest := by
        apply hrec
        intro k
        rw [lastValidFor_append]
        rw [hv]
        exact h k
      simp only [inferGo, specAssignGo, hv, h (traceKey r)]
      cases hLV : lastValidFor (traceKey r) pre with
      | none =>
        cases hts : r.timestamp with
        | some ts => simp only [htail]
        | none => simp only [htail]
      | some pv =>
        obtain ⟨pid, pts⟩ := pv
        cases pts with
        | none =>
          cases hts : r.timestamp with
          | some ts => simp only [htail]
          | none => simp only [htail]
        | some prev_ts =>
          cases hts : r.timestamp with
          | none => simp only [htail]
          | some ts =>
            by_cases hw : within30s ts prev_ts = true
            · simp only [hw, if_true, htail]
            · have hw' : within30s ts prev_ts = false := by
                cases hv2 : within30s ts prev_ts with
                | true => exact absurd hv2 hw
                | false => rfl
              simp only [hw', Bool.false_eq_true, if_false, htail]

/-- C7: the batch TraceID inference assigns, to every record without an
explicit valid trace id, the id of the most recent prior record (same
`(service, replica)` key) that carried one — borrowed only when both
timestamps are present and less than 30 seconds apart — and otherwise a
synthetic id from the service, replica and 5-minute bucket (or the orphan
id without a timestamp); on the three-record example the t=10s record
inherits `abc123` and the t=50s record gets the distinct bucketed id. -/
theorem C7_trace_id_inference :
    (∀ rows : List BRow, inferTraceIds rows = specAssign rows)
    ∧ bundleInferTraceIds c7rows
        = ["abc123", "abc123", "synth-checkout-r1-202501011000"]
    ∧ ("synth-checkout-r1-202501011000" : String) ≠ "abc123" := by
  refine ⟨?_, by rfl, by decide⟩
  intro rows
  exact inferGo_eq_specAssignGo rows [] [] (fun _ => rfl)

/-! ### C8 helper lemmas -/

theorem mergeSortDedup_eq_of_mem_iff (l1 l2 : List String)
    (h : ∀ a, a ∈ l1 ↔ a ∈ l2) :
    l1.dedup.mergeSort (fun a b => a ≤ b) = l2.dedup.mergeSort (fun a b => a ≤ b) := by
  have hperm : l1.dedup.Perm l2.dedup :=
    (List.perm_ext_iff_of_nodup (List.nodup_dedup l1) (List.nodup_dedup l2)).mpr
      (fun a => by rw [List.mem_dedup, List.mem_dedup]; exact h a)
  have p1 := List.mergeSort_perm l1.dedup (fun a b => a ≤ b)
  have p2 := List.mergeSort_perm l2.dedup (fun a b => a ≤ b)
  have hp : (l1.dedup.mergeSort (fun a b => a ≤ b)).Perm
      (l2.dedup.mergeSort (fun a b => a ≤ b)) :=
    (p1.trans hperm).trans p2.symm
  have htrans : ∀ a b c : String,
      (fun a b => (a ≤ b : Bool)) a b → (fun a b => (a ≤ b : Bool)) b c →
      (fun a b => (a ≤ b : Bool)) a c := by
    intro a b c h1 h2
    simp only [decide_eq_true_eq] at h1 h2 ⊢
    exact le_trans h1 h2
  have htotal : ∀ a b : String,
      ((fun a b => (a ≤ b : Bool)) a b || (fun a b => (a ≤ b : Bool)) b a) = true := by
    intro a b
    simp [le_total]
  have hs1 := List.sorted_mergeSort htrans htotal l1.dedup
  have hs2 := List.sorted_mergeSort htrans htotal l2.dedup
  have s1 : List.Sorted (fun a b : String => a ≤ b)
      (l1.dedup.mergeSort (fun a b => a ≤ b)) :=
    hs1.imp (fun hab => by simpa using hab)
  have s2 : List.Sorted (fun a b : String => a ≤ b)
      (l2.dedup.mergeSort (fun a b => a ≤ b)) :=
    hs2.imp (fun hab => by simpa using hab)
  exact List.eq_of_perm_of_sorted hp s1 s2

theorem uniquePatternsSorted_nil_iff (c : String) :
    uniquePatternsSorted c = [] ↔ canonPatterns c = [] := by
  rw [uniquePatternsSorted]
  constructor
  · intro h
    have hperm := List.mergeSort_perm (canonPatterns c).dedup (fun a b => a ≤ b)
    rw [h] at hperm
    have hlen := hperm.length_eq
    simp only [List.length_nil] at hlen
    have hd : (canonPatterns c).dedup = [] := List.eq_nil_of_length_eq_zero hlen.symm
    exact (List.dedup_eq_nil _).mp hd
  · intro h
    rw [h]
    simp [List.mergeSort_nil]

/-- C8: the content fingerprint depends only on the set of canonicalized
lines — two contents with the same canonical line sets (any permutation
or duplication of lines) hash identically. -/
theorem C8_fingerprint_set_invariance (c1 c2 : String)
    (h1 : ∀ p ∈ canonPatterns c1, p ∈ canonPatterns c2)
    (h2 : ∀ p ∈ canonPatterns c2, p ∈ canonPatterns c1) :
    generate_fingerprint c1 = generate_fingerprint c2 := by
  have hmem : ∀ p, p ∈ canonPatterns c1 ↔ p ∈ canonPatterns c2 :=
    fun p => ⟨h1 p, h2 p⟩
  have hsorted : uniquePatternsSorted c1 = uniquePatternsSorted c2 :=
    mergeSortDedup_eq_of_mem_iff _ _ hmem
  by_cases hpat : canonPatterns c1 = []
  · have hpat2 : canonPatterns c2 = [] := by
      rw [List.eq_nil_iff_forall_not_mem]
      intro p hp
      have := h2 p hp
      rw [hpat] at this
      exact List.not_mem_nil p this
    have g1 : generate_fingerprint c1 = "empty" := by
      rw [generate_fingerprint]
      by_cases e1 : c1 = ""
      · rw [if_pos e1]
      · rw [if_neg e1, if_pos ((uniquePatternsSorted_nil_iff c1).mpr hpat)]
    have g2 : generate_fingerprint c2 = "empty" := by
      rw [generate_fingerprint]
      by_cases e2 : c2 = ""
      · rw [if_pos e2]
      · rw [if_neg e2, if_pos ((uniquePatternsSorted_nil_iff c2).mpr hpat2)]
    rw [g1, g2]
  · have hpat2 : canonPatterns c2 ≠ [] := by
      intro hc
      apply hpat
      rw [List.eq_nil_iff_forall_not_mem]
      intro p hp
      have := h1 p hp
      rw [hc] at this
      exact List.not_mem_nil p this
    have e1 : c1 ≠ "" := by
      intro e
      apply hpat
      rw [e]
      rfl
    have e2 : c2 ≠ "" := by
      intro e
      apply hpat2
      rw [e]
      rfl
    rw [generate_fingerprint, generate_fingerprint, if_neg e1, if_neg e2, hsorted]

/-- C8 witness: `"b\na\na"` and `"a\nb"` have equal canonical line sets
and therefore the same fingerprint. -/
theorem C8_fingerprint_witness :
    (∀ p ∈ canonPatterns c8content1, p ∈ canonPatterns c8content2)
    ∧ (∀ p ∈ canonPatterns c8content2, p ∈ canonPatterns c8content1)
    ∧ generate_fingerprint c8content1 = generate_fingerprint c8content2 :=
  ⟨by decide, by decide,
   C8_fingerprint_set_invariance c8content1 c8content2 (by decide) (by decide)⟩

/-! ### C9 helper lemmas -/

theorem insertStable_length {α : Type} (le : α → α → Bool) (x : α) :
    ∀ l : List α, (insertStable le x l).length = l.length + 1 := by
  intro l
  induction l with
  | nil => rfl
  | cons y ys ih =>
    rw [insertStable]
    by_cases h : le y x ∧ ¬ le x y
    · rw [if_pos h]
      simp [ih]
    · rw [if_neg h]
      simp

theorem pyStableSort_length {α : Type} (le : α → α → Bool) (l : List α) :
    (pyStableSort le l).length = l.length := by
  rw [pyStableSort]
  induction l with
  | nil => rfl
  | cons x xs ih =>
    rw [List.foldr_cons, insertStable_length]
    simp [ih]

theorem sumLens_nil : sumLens [] = 0 := rfl

theorem sumLens_cons (x : String) (xs : List String) :
    sumLens (x :: xs) = x.length + sumLens xs := by
  simp [sumLens]

/-- Budget/marker invariant of the streaming format loop: the emitted
lines (marker aside) keep the running character count within the budget,
and a truncation marker counts at least one omitted log. -/
theorem streamFormatLoop_spec (total maxLen : Nat) :
    ∀ (logs : List IncidentLog) (cc em : Nat),
      cc ≤ maxLen → em + logs.length ≤ total →
      ∃ kept : List String,
        (streamFormatLoop total maxLen logs cc em = kept
          ∧ cc + sumLens kept ≤ maxLen)
        ∨ (∃ k, streamFormatLoop total maxLen logs cc em = kept ++ [truncMarker k]
            ∧ cc + sumLens kept ≤ maxLen ∧ 1 ≤ k) := by
  intro logs
  induction logs with
  | nil =>
    intro cc em hc _
    exact ⟨[], Or.inl ⟨rfl, by simpa [sumLens] using hc⟩⟩
  | cons log rest ih =>
    intro cc em hc he
    have he' : em + 1 + rest.length ≤ total := by
      simp only [List.length_cons] at he
      omega
    rw [streamFormatLoop]
    by_cases hb : cc + (streamMkLine log).length > maxLen
    · rw [if_pos hb]
      refine ⟨[], Or.inr ⟨total - em, rfl, by simpa [sumLens] using hc, ?_⟩⟩
      omega
    · rw [if_neg hb]
      obtain ⟨kept, hk⟩ := ih (cc + (streamMkLine log).length) (em + 1)
          (by omega) he'
      rcases hk with ⟨heq, hle⟩ | ⟨k, heq, hle, hk1⟩
      · refine ⟨streamMkLine log :: kept, Or.inl ⟨by rw [heq], ?_⟩⟩
        rw [sumLens_cons]
        omega
      · refine ⟨streamMkLine log :: kept, Or.inr ⟨k, by rw [heq]; rfl, ?_, hk1⟩⟩
        rw [sumLens_cons]
        omega

/-- Budget/marker invariant of the batch format loop. -/
theorem batchFormatLoop_spec (maxLen total : Nat) (hasErrors : Bool) :
    ∀ (rows : List BRow) (seen : List String) (lastSev : Option String)
      (inTb skipSeg : Bool) (cc em : Nat),
      cc ≤ maxLen → em + rows.length ≤ total →
      ∃ kept : List String,
        (batchFormatLoop maxLen total hasErrors rows seen lastSev inTb skipSeg cc em
            = kept
          ∧ cc + sumLens kept ≤ maxLen)
        ∨ (∃ k, batchFormatLoop maxLen total hasErrors rows seen lastSev inTb skipSeg cc em
              = kept ++ [truncMarker k]
            ∧ cc + sumLens kept ≤ maxLen ∧ 1 ≤ k) := by
  intro rows
  induction rows with
  | nil =>
    intro seen lastSev inTb skipSeg cc em hc _
    exact ⟨[], Or.inl ⟨rfl, by simpa [sumLens] using hc⟩⟩
  | cons row rest ih =>
    intro seen lastSev inTb skipSeg cc em hc he
    have he' : em + rest.length ≤ total := by
      simp only [List.length_cons] at he
      omega
    have he'' : em + 1 + rest.length ≤ total := by
      simp only [List.length_cons] at he
      omega
    rw [batchFormatLoop]
    by_cases h1 : seen.contains (pyRstrip (row.message.getD "")) = true
    · simp only [h1, if_true]
      exact ih seen lastSev inTb skipSeg cc em hc he'
    · have h1' : seen.contains (pyRstrip (row.message.getD "")) = false :=
        Bool.not_eq_true _ ▸ (by simpa using h1)
      simp only [h1', Bool.false_eq_true, if_false]
      by_cases h2 : (batchTbStep inTb skipSeg (pyRstrip (row.message.getD ""))).2.2 = true
      · simp only [h2, if_true]
        exact ih seen lastSev _ _ cc em hc he'
      · have h2' : (batchTbStep inTb skipSeg (pyRstrip (row.message.getD ""))).2.2 = false := by
          simpa using h2
        simp only [h2', Bool.false_eq_true, if_false]
        by_cases h3 : batchIsNoise hasErrors (row.severity.getD "INFO")
            (pyRstrip (row.message.getD "")) = true
        · simp only [h3, if_true]
          exact ih seen lastSev _ _ cc em hc he'
        · have h3' : batchIsNoise hasErrors (row.severity.getD "INFO")
              (pyRstrip (row.message.getD "")) = false := by
            simpa using h3
          simp only [h3', Bool.false_eq_true, if_false]
          by_cases hb : cc + (batchMkLine lastSev (row.severity.getD "INFO")
              (pyRstrip (row.message.getD "")) row.stack_trace).length > maxLen
          · rw [if_pos hb]
            refine ⟨[], Or.inr ⟨total - em, rfl, by simpa [sumLens] using hc, ?_⟩⟩
            omega
          · rw [if_neg hb]
            obtain ⟨kept, hk⟩ := ih (seen ++ [pyRstrip (row.message.getD "")])
              (some (row.severity.getD "INFO")) _ _
              (cc + (batchMkLine lastSev (row.severity.getD "INFO")
                (pyRstrip (row.message.getD "")) row.stack_trace).length)
              (em + 1) (by omega) he''
            rcases hk with ⟨heq, hle⟩ | ⟨k, heq, hle, hk1⟩
            · refine ⟨batchMkLine lastSev (row.severity.getD "INFO")
                  (pyRstrip (row.message.getD "")) row.stack_trace :: kept,
                Or.inl ⟨by rw [heq], ?_⟩⟩
              rw [sumLens_cons]
              omega
            · refine ⟨batchMkLine lastSev (row.severity.getD "INFO")
                  (pyRstrip (row.message.getD "")) row.stack_trace :: kept,
                Or.inr ⟨k, by rw [heq]; rfl, ?_, hk1⟩⟩
              rw [sumLens_cons]
              omega

/-- C9 counterexample: with a character budget of 10 the streaming
formatter emits a content string of 38 characters — the budget check
ignores the newline separators and appends the truncation marker after
the budget is already full. -/
theorem C9_counterexample_budget_overrun :
    c9Bundle.format_content 10 = "[INFO] abc\n... (1 more logs truncated)"
    ∧ (c9Bundle.format_content 10).length = 38
    ∧ 38 > 10 := by
  exact ⟨by decide, by decide, by decide⟩

/-- C9 (amended): in both formatters the sum of the lengths of the
emitted log lines — the newline separators and the truncation marker
excluded — never exceeds the budget, and whenever the budget check
fires the content is the emitted lines followed by exactly one
`... (N more logs truncated)` marker with N ≥ 1; the formatters are
pure functions of the logs and the budget. -/
theorem C9_budget_and_marker :
    (∀ (b : IncidentBundle) (maxLen : Nat),
      ∃ kept : List String,
        (b.format_content maxLen = joinLines kept ∧ sumLens kept ≤ maxLen)
        ∨ (∃ k, b.format_content maxLen = joinLines (kept ++ [truncMarker k])
            ∧ sumLens kept ≤ maxLen ∧ 1 ≤ k))
    ∧ (∀ (maxLen : Nat) (rows : List BRow),
      ∃ kept : List String,
        (batch_format_content maxLen rows = joinLines kept ∧ sumLens kept ≤ maxLen)
        ∨ (∃ k, batch_format_content maxLen rows = joinLines (kept ++ [truncMarker k])
            ∧ sumLens kept ≤ maxLen ∧ 1 ≤ k)) := by
  constructor
  · intro b maxLen
    have hlen : 0 + (pyStableSort
        (fun x y => strLeB (streamSortKey x) (streamSortKey y)) b.logs).length
        ≤ b.logs.length := by
      rw [pyStableSort_length]
      omega
    obtain ⟨kept, hk⟩ := streamFormatLoop_spec b.logs.length maxLen
      (pyStableSort (fun x y => strLeB (streamSortKey x) (streamSortKey y)) b.logs) 0 0
      (Nat.zero_le _) hlen
    rcases hk with ⟨heq, hle⟩ | ⟨k, heq, hle, hk1⟩
    · exact ⟨kept, Or.inl ⟨by rw [IncidentBundle.format_content, heq], by omega⟩⟩
    · exact ⟨kept, Or.inr ⟨k, by rw [IncidentBundle.format_content, heq], by omega, hk1⟩⟩
  · intro maxLen rows
    by_cases hrows : rows = []
    · refine ⟨[], Or.inl ⟨?_, by simp [sumLens]⟩⟩
      rw [batch_format_content, if_pos hrows]
      rfl
    · have hlen : 0 + (pyStableSort tsRowLe rows).length ≤ rows.length := by
        rw [pyStableSort_length]
        omega
      obtain ⟨kept, hk⟩ := batchFormatLoop_spec maxLen rows.length
        (rows.any (fun r => batchSevNum r ≥ lookupD SEVERITY_ORDER "ERROR" 1))
        (pyStableSort tsRowLe rows) [] none false false 0 0 (Nat.zero_le _) hlen
      rcases hk with ⟨heq, hle⟩ | ⟨k, heq, hle, hk1⟩
      · refine ⟨kept, Or.inl ⟨?_, by omega⟩⟩
        simp only [batch_format_content, if_neg hrows]
        rw [heq]
      · refine ⟨kept, Or.inr ⟨k, ?_, by omega, hk1⟩⟩
        simp only [batch_format_content, if_neg hrows]
        rw [heq]

end Spec2Proof
